import Mathlib

/-!
Verification of the multi-strategy extraction and canonicalization pipeline
of the tiktok-shop-scraper repository, by shallow embedding of the Python
sources (`src/utils/parser.py`, `src/utils/validator.py`,
`src/services/scraper.py`, `src/extractors/tiktok_parser.py`,
`src/extractors/utils_format.py`) into Lean.

Python dynamic values are modelled by the inductive `PyVal`; Python floats
are modelled as rationals (the decimal values appearing in these claims are
represented exactly); fallible Python operations (`int(...)`, `float(...)`,
`json.loads`, subscription, attribute access) return `Except PyErr`.
-/

namespace TikTokShop

/-- Python exception classes that the embedded code can raise. -/
inductive PyErr
  | valueError
  | typeError
  | attributeError
  | indexError
  | keyError
  | validationError
  deriving DecidableEq, Repr

/-! ### Exact rationals and character-list string utilities

Python floats are modelled as exact rationals.  (The decimal literals and
arithmetic arising in this repository are represented exactly; the binary
rounding of IEEE doubles is immaterial to the claims proved here.)  A
dedicated normalized-fraction type is used, built from plain structural
definitions so that every closed term reduces definitionally. -/

/-- Exact division of an integer by a natural number that divides it. -/
def exactDivInt (n : Int) (g : Nat) : Int :=
  if n < 0 then -(((-n).toNat / g : Nat) : Int) else ((n.toNat / g : Nat) : Int)

/-- A rational in lowest terms with positive denominator, standing in for a
Python float. -/
structure PyFloat where
  num : Int
  den : Nat
  deriving DecidableEq, Repr

namespace PyFloat

/-- Normalize `n / d` (for `d > 0`). -/
def norm (n : Int) (d : Nat) : PyFloat :=
  let g := Nat.gcd n.natAbs d
  ⟨exactDivInt n g, d / g⟩

def ofInt (n : Int) : PyFloat := ⟨n, 1⟩

def zero : PyFloat := ⟨0, 1⟩

def add (a b : PyFloat) : PyFloat :=
  norm (a.num * (b.den : Int) + b.num * (a.den : Int)) (a.den * b.den)

def sub (a b : PyFloat) : PyFloat :=
  norm (a.num * (b.den : Int) - b.num * (a.den : Int)) (a.den * b.den)

def mul (a b : PyFloat) : PyFloat :=
  norm (a.num * b.num) (a.den * b.den)

def neg (a : PyFloat) : PyFloat := ⟨-a.num, a.den⟩

/-- `a ≤ b` by cross-multiplication (denominators are positive). -/
def ble (a b : PyFloat) : Bool :=
  a.num * (b.den : Int) ≤ b.num * (a.den : Int)

def blt (a b : PyFloat) : Bool :=
  a.num * (b.den : Int) < b.num * (a.den : Int)

/-- Mathematical floor. -/
def floor (a : PyFloat) : Int := a.num.fdiv (a.den : Int)

/-- Truncation toward zero, as Python `int(float)`. -/
def trunc (a : PyFloat) : Int :=
  if a.num < 0 then -((a.num.natAbs / a.den : Nat) : Int)
  else ((a.num.natAbs / a.den : Nat) : Int)

def isNeg (a : PyFloat) : Bool := a.num < 0

def natAbsNum (a : PyFloat) : Nat := a.num.natAbs

end PyFloat

/-- Remove leading and trailing whitespace (Python `str.strip()`). -/
def trimChars (cs : List Char) : List Char :=
  ((cs.dropWhile Char.isWhitespace).reverse.dropWhile Char.isWhitespace).reverse

/-- Python `str.strip()` at `String` level. -/
def strStrip (s : String) : String := String.mk (trimChars s.data)

def strLower (s : String) : String := String.mk (s.data.map Char.toLower)

def strUpper (s : String) : String := String.mk (s.data.map Char.toUpper)

/-- Split a character list at every occurrence of `sep` (Python-style
`split`, keeping empty segments). -/
def splitOnChar (sep : Char) : List Char → List (List Char)
  | [] => [[]]
  | c :: cs =>
    if c == sep then [] :: splitOnChar sep cs
    else
      match splitOnChar sep cs with
      | h :: t => (c :: h) :: t
      | [] => [[c]]

def startsWithChars : List Char → List Char → Bool
  | _, [] => true
  | [], _ :: _ => false
  | c :: cs, p :: ps => c == p && startsWithChars cs ps

/-- Substring containment test (Python `pat in s`). -/
def containsSub : List Char → List Char → Bool
  | [], pat => pat.isEmpty
  | c :: rest, pat => startsWithChars (c :: rest) pat || containsSub rest pat

/-- A naive (timezone-free) `datetime.datetime` value: calendar fields plus
microseconds, as produced by `datetime.utcfromtimestamp` and
`dateutil.parser.parse` on the ISO inputs exercised here. -/
structure PyDateTime where
  year : Int
  month : Nat
  day : Nat
  hour : Nat
  minute : Nat
  second : Nat
  usec : Nat
  deriving DecidableEq, Repr

/-- Model of a Python runtime value, covering the shapes the pipeline
manipulates: `None`, `bool`, `int`, `float` (as an exact rational), `str`,
`list`, `dict` (insertion-ordered association list with string keys, which is
the only key shape arising from JSON and from the repository's literals), and
`datetime`. -/
inductive PyVal
  | none
  | bool (b : Bool)
  | int (n : Int)
  | float (q : PyFloat)
  | str (s : String)
  | list (xs : List PyVal)
  | dict (kvs : List (String × PyVal))
  | datetime (d : PyDateTime)
  deriving Repr

abbrev PyDict := List (String × PyVal)

mutual

/-- Structural equality test for `PyVal` (Lean cannot derive `DecidableEq`
for this nested inductive, so it is written out). -/
def PyVal.beq : PyVal → PyVal → Bool
  | .none, .none => true
  | .bool a, .bool c => a == c
  | .int a, .int c => a == c
  | .float a, .float c => a == c
  | .str a, .str c => a == c
  | .list xs, .list ys => PyVal.beqList xs ys
  | .dict xs, .dict ys => PyVal.beqPairs xs ys
  | .datetime a, .datetime c => a == c
  | _, _ => false

def PyVal.beqList : List PyVal → List PyVal → Bool
  | [], [] => true
  | x :: xs, y :: ys => PyVal.beq x y && PyVal.beqList xs ys
  | _, _ => false

def PyVal.beqPairs : List (String × PyVal) → List (String × PyVal) → Bool
  | [], [] => true
  | (k, v) :: xs, (l, w) :: ys => k == l && PyVal.beq v w && PyVal.beqPairs xs ys
  | _, _ => false

end

mutual

theorem PyVal.beq_iff : ∀ (a b : PyVal), PyVal.beq a b = true ↔ a = b
  | .none, b => by cases b <;> simp [PyVal.beq]
  | .bool a, b => by cases b <;> simp [PyVal.beq]
  | .int a, b => by cases b <;> simp [PyVal.beq]
  | .float a, b => by cases b <;> simp [PyVal.beq]
  | .str a, b => by cases b <;> simp [PyVal.beq]
  | .list xs, b => by
      cases b <;> simp [PyVal.beq]
      exact PyVal.beqList_iff xs _
  | .dict xs, b => by
      cases b <;> simp [PyVal.beq]
      exact PyVal.beqPairs_iff xs _
  | .datetime a, b => by cases b <;> simp [PyVal.beq]

theorem PyVal.beqList_iff : ∀ (xs ys : List PyVal), PyVal.beqList xs ys = true ↔ xs = ys
  | [], ys => by cases ys <;> simp [PyVal.beqList]
  | x :: xs, ys => by
      cases ys with
      | nil => simp [PyVal.beqList]
      | cons y ys =>
        simp [PyVal.beqList, PyVal.beq_iff x y, PyVal.beqList_iff xs ys]

theorem PyVal.beqPairs_iff : ∀ (xs ys : List (String × PyVal)),
    PyVal.beqPairs xs ys = true ↔ xs = ys
  | [], ys => by cases ys <;> simp [PyVal.beqPairs]
  | (k, v) :: xs, ys => by
      cases ys with
      | nil => simp [PyVal.beqPairs]
      | cons y ys =>
        obtain ⟨l, w⟩ := y
        simp [PyVal.beqPairs, PyVal.beq_iff v w, PyVal.beqPairs_iff xs ys]

end

instance : DecidableEq PyVal := fun a b => decidable_of_iff _ (PyVal.beq_iff a b)

/-- Python truthiness (`bool(v)`): `None`, `False`, zero numbers, empty
strings and empty containers are falsy; `datetime` objects are always truthy. -/
def truthy : PyVal → Bool
  | .none => false
  | .bool b => b
  | .int n => n != 0
  | .float q => q.num != 0
  | .str s => s != ""
  | .list xs => !xs.isEmpty
  | .dict kvs => !kvs.isEmpty
  | .datetime _ => true

/-- `d.get(k)` on a dict: first binding wins (the association lists built by
the embedded JSON loader and record literals carry distinct keys); a missing
key yields `None`. -/
def pyGet (kvs : PyDict) (k : String) : PyVal :=
  match kvs.find? (fun kv => kv.1 == k) with
  | some kv => kv.2
  | Option.none => .none

/-- `d.get(k, dflt)` on a dict. -/
def pyGetD (kvs : PyDict) (k : String) (dflt : PyVal) : PyVal :=
  match kvs.find? (fun kv => kv.1 == k) with
  | some kv => kv.2
  | Option.none => dflt

/-- Python's short-circuiting `a or b`: the first operand when truthy,
otherwise the second operand (whatever its truthiness). -/
def pyOr (a b : PyVal) : PyVal :=
  if truthy a then a else b

/-! ### Python scalar conversions (`str`, `int`, `float`)

`str`/`repr` are modelled closely enough to be exact on the values these
claims evaluate (strings, ints, short decimal floats, `None`, bools, and
containers thereof).  Python floats are modelled as rationals; `ratRepr`
prints the exact decimal expansion when the denominator divides a power of
ten (which holds for every float value arising in this development), matching
CPython's shortest round-trip repr on such values. -/

/-- The ASCII apostrophe, used by Python `repr` of strings. -/
def squote : Char := Char.ofNat 39

/-- Decimal rendering of a rational, matching Python `repr`/`str` of a float
whose value is an exact short decimal (e.g. `5 ↦ "5.0"`, `9.99 ↦ "9.99"`). -/
def ratRepr (q : PyFloat) : String :=
  let k := ((List.range 18).find? (fun k => 10 ^ k % q.den == 0)).getD 17
  let scaled := q.natAbsNum * 10 ^ k / q.den
  let ip := scaled / 10 ^ k
  let fp := scaled % 10 ^ k
  let fpStr := Nat.toDigits 10 fp
  let fracStr := if k = 0 then "0"
    else String.mk (List.replicate (k - fpStr.length) '0' ++ fpStr)
  (if q.isNeg then "-" else "") ++ toString ip ++ "." ++ fracStr

mutual

/-- Python `repr(v)`. -/
def pyRepr : PyVal → String
  | .none => "None"
  | .bool b => if b then "True" else "False"
  | .int n => toString n
  | .float q => ratRepr q
  | .str s => String.singleton squote ++ s ++ String.singleton squote
  | .list xs => "[" ++ String.intercalate ", " (pyReprList xs) ++ "]"
  | .dict kvs => "\x7b" ++ String.intercalate ", " (pyReprPairs kvs) ++ "\x7d"
  | .datetime _ => "datetime.datetime(...)"

def pyReprList : List PyVal → List String
  | [] => []
  | x :: xs => pyRepr x :: pyReprList xs

def pyReprPairs : List (String × PyVal) → List String
  | [] => []
  | (k, v) :: kvs =>
    (String.singleton squote ++ k ++ String.singleton squote ++ ": " ++ pyRepr v)
      :: pyReprPairs kvs

end

/-- Python `str(v)`: identity on strings, `repr` otherwise. -/
def pyStr : PyVal → String
  | .str s => s
  | v => pyRepr v

/-- Numeric value of a nonempty list of decimal digit characters. -/
def digitsVal (ds : List Char) : Nat :=
  ds.foldl (fun acc c => acc * 10 + (c.toNat - 48)) 0

/-- Python `int(s)` on a string: optional surrounding whitespace, optional
sign, then decimal digits; anything else raises `ValueError`.  (CPython also
accepts `_` digit grouping, which the repository never exercises and which is
not modelled.) -/
def parsePyInt (s : String) : Option Int :=
  let core : Int × List Char :=
    match trimChars s.data with
    | '-' :: rest => (-1, rest)
    | '+' :: rest => (1, rest)
    | l => (1, l)
  if core.2 ≠ [] ∧ core.2.all Char.isDigit then
    some (core.1 * (digitsVal core.2 : Int))
  else Option.none

/-- Python `float(s)` on a string: optional whitespace and sign, digits with
at most one decimal point (at least one digit overall), optional decimal
exponent.  (`inf`/`nan` spellings are not modelled; nothing in the repository
produces them.) -/
def parsePyFloat (s : String) : Option PyFloat :=
  let t := trimChars (s.data.map Char.toLower)
  let signed : Int × List Char :=
    match t with
    | '-' :: rest => (-1, rest)
    | '+' :: rest => (1, rest)
    | l => (1, l)
  let mantExp : List Char × Option (List Char) :=
    match splitOnChar 'e' signed.2 with
    | [m] => (m, Option.none)
    | [m, e] => (m, some e)
    | _ => ([], some [])
  let mant := mantExp.1
  let expPart : Option Int :=
    match mantExp.2 with
    | Option.none => some 0
    | some echars =>
      let esigned : Int × List Char :=
        match echars with
        | '-' :: rest => (-1, rest)
        | '+' :: rest => (1, rest)
        | l => (1, l)
      if esigned.2 ≠ [] ∧ esigned.2.all Char.isDigit then
        some (esigned.1 * (digitsVal esigned.2 : Int))
      else Option.none
  let build : Nat → Nat → Nat → Option PyFloat := fun mantInt mantFrac fracLen =>
    match expPart with
    | Option.none => Option.none
    | some e =>
      let n : Int := signed.1 * ((mantInt * 10 ^ fracLen + mantFrac : Nat) : Int)
      if e < 0 then
        some (PyFloat.norm n (10 ^ fracLen * 10 ^ e.natAbs))
      else
        some (PyFloat.norm (n * ((10 ^ e.toNat : Nat) : Int)) (10 ^ fracLen))
  match splitOnChar '.' mant with
  | [ip] =>
    if ip ≠ [] ∧ ip.all Char.isDigit then build (digitsVal ip) 0 0
    else Option.none
  | [ip, fp] =>
    if (ip ≠ [] ∨ fp ≠ []) ∧ ip.all Char.isDigit ∧ fp.all Char.isDigit then
      build (digitsVal ip) (digitsVal fp) fp.length
    else Option.none
  | _ => Option.none

/-- Python `int(v)` (`src` call sites: `map_product`, `_apply_sort`): ints
pass through, bools count as ints, floats truncate toward zero, strings are
parsed, everything else is a `TypeError`. -/
def pyIntFn : PyVal → Except PyErr Int
  | .int n => .ok n
  | .bool b => .ok (if b then 1 else 0)
  | .float q => .ok q.trunc
  | .str s =>
    match parsePyInt s with
    | some n => .ok n
    | Option.none => .error .valueError
  | _ => .error .typeError

/-- Python `float(v)` (`src` call site: `_apply_sort`). -/
def pyFloatFn : PyVal → Except PyErr PyFloat
  | .int n => .ok (PyFloat.ofInt n)
  | .bool b => .ok (PyFloat.ofInt (if b then 1 else 0))
  | .float q => .ok q
  | .str s =>
    match parsePyFloat s with
    | some q => .ok q
    | Option.none => .error .valueError
  | _ => .error .typeError

/-! ### Field normalizers, from `src/utils/parser.py` -/

/-- `normalize_price` — convert various price representations to float;
never raises.  (`bool` takes the `isinstance(value, (int, float))` branch,
as in Python where `bool` subclasses `int`.) -/
def normalize_price (value : PyVal) : PyFloat :=
  match value with
  | .none => PyFloat.zero
  | .int n => PyFloat.ofInt n
  | .float q => q
  | .bool b => PyFloat.ofInt (if b then 1 else 0)
  | v =>
    let s := pyStr v
    let digits := String.mk
      (s.data.filter (fun c => c.isDigit || c == '.' || c == ','))
    let digits2 := String.mk (digits.data.filter (fun c => c != ','))
    match parsePyFloat digits2 with
    | some q => q
    | Option.none => PyFloat.zero

/-- `guess_currency_from_region` — fixed region→currency table, defaulting
to USD; falsy regions (absent or empty) also default to USD. -/
def guess_currency_from_region (region : Option String) : String :=
  let mapping : List (String × String) :=
    [("US", "USD"), ("VN", "VND"), ("GB", "GBP"), ("EU", "EUR"), ("PK", "PKR"),
     ("ID", "IDR"), ("MY", "MYR"), ("TH", "THB"), ("PH", "PHP")]
  match region with
  | Option.none => "USD"
  | some r =>
    if r = "" then "USD"
    else match mapping.find? (fun kv => kv.1 == strUpper r) with
      | some kv => kv.2
      | Option.none => "USD"

/-- Round to the nearest integer, ties to even — the rounding used by
Python's fixed-point string formatting. -/
def roundHalfEven (q : PyFloat) : Int :=
  let f := q.floor
  let frac := q.sub (PyFloat.ofInt f)
  let half : PyFloat := ⟨1, 2⟩
  if frac.blt half then f
  else if half.blt frac then f + 1
  else if f % 2 = 0 then f else f + 1

/-- Python `f"{x:.2f}"`: fixed-point with two decimals, rounding half to
even (exact on the decimal values this development evaluates). -/
def format2f (q : PyFloat) : String :=
  let c := roundHalfEven (q.mul (PyFloat.ofInt 100))
  let neg := q.isNeg
  let a := c.natAbs
  let fp := a % 100
  (if neg then "-" else "") ++ toString (a / 100) ++ "." ++
    String.mk (if fp < 10 then ['0'] else []) ++ toString fp

/-! ### Timestamps (`to_iso8601` in `src/utils/parser.py`)

`datetime.utcfromtimestamp` is embedded through the standard
days-to-civil-date conversion; it raises (`ValueError`) when the resulting
year falls outside `datetime`'s representable range 1..9999, as CPython does. -/

/-- Zero-padded decimal rendering of a natural number to width `w`. -/
def padNat (w : Nat) (n : Nat) : String :=
  let ds := Nat.toDigits 10 n
  String.mk (List.replicate (w - ds.length) '0' ++ ds)

/-- Gregorian civil date from a count of days since 1970-01-01
(days-from-civil inverse, valid for all integers). -/
def civilOfDays (z0 : Int) : Int × Nat × Nat :=
  let z := z0 + 719468
  let era := z.fdiv 146097
  let doe := (z - era * 146097).toNat
  let yoe := (doe - doe / 1460 + doe / 36524 - doe / 146096) / 365
  let y := (yoe : Int) + era * 400
  let doy := doe - (365 * yoe + yoe / 4 - yoe / 100)
  let mp := (5 * doy + 2) / 153
  let d := doy - (153 * mp + 2) / 5 + 1
  let m := if mp < 10 then mp + 3 else mp - 9
  (if m ≤ 2 then y + 1 else y, m, d)

/-- UTC calendar time of an epoch-seconds value (with microseconds). -/
def civilOfEpoch (n : Int) (usec : Nat) : PyDateTime :=
  let days := n.fdiv 86400
  let rem := (n - days * 86400).toNat
  let c := civilOfDays days
  { year := c.1, month := c.2.1, day := c.2.2,
    hour := rem / 3600, minute := rem % 3600 / 60, second := rem % 60, usec := usec }

/-- `datetime.utcfromtimestamp` on integer seconds: raises for years outside
1..9999. -/
def utcfromtimestampInt (n : Int) : Except PyErr PyDateTime :=
  let c := civilOfEpoch n 0
  if 1 ≤ c.year ∧ c.year ≤ 9999 then .ok c else .error .valueError

/-- The UTC calendar time of a float epoch value: seconds split from
microseconds, fractional microseconds rounded half-to-even as in CPython. -/
def civilOfEpochFloat (q : PyFloat) : PyDateTime :=
  let usTotal := roundHalfEven (q.mul (PyFloat.ofInt 1000000))
  let sec := usTotal.fdiv 1000000
  let us := (usTotal - sec * 1000000).toNat
  civilOfEpoch sec us

/-- `datetime.utcfromtimestamp` on a float: raises for years outside
1..9999. -/
def utcfromtimestampFloat (q : PyFloat) : Except PyErr PyDateTime :=
  let c := civilOfEpochFloat q
  if 1 ≤ c.year ∧ c.year ≤ 9999 then .ok c else .error .valueError

/-- `datetime.isoformat()`: `YYYY-MM-DDTHH:MM:SS[.ffffff]`. -/
def isoformat (d : PyDateTime) : String :=
  padNat 4 d.year.toNat ++ "-" ++ padNat 2 d.month ++ "-" ++ padNat 2 d.day ++
    "T" ++ padNat 2 d.hour ++ ":" ++ padNat 2 d.minute ++ ":" ++ padNat 2 d.second ++
    (if d.usec ≠ 0 then "." ++ padNat 6 d.usec else "")

/-- Parse exactly `k` decimal digits. -/
def parseDigits (k : Nat) (cs : List Char) : Option (Nat × List Char) :=
  let ds := cs.take k
  if ds.length = k ∧ ds.all Char.isDigit then some (digitsVal ds, cs.drop k)
  else Option.none

/-- Model of `dateutil.parser.parse` restricted to the ISO-like forms
`YYYY-MM-DD` and `YYYY-MM-DD[T ]HH:MM:SS` (dateutil accepts a superset of
formats; the repository's spec only promises a best-effort parse of ISO-like
strings, and only this fragment is relied on by the claims). -/
def dateutil_parse (s : String) : Option PyDateTime :=
  match parseDigits 4 s.data with
  | Option.none => Option.none
  | some (y, r1) =>
    match r1 with
    | '-' :: r2 =>
      match parseDigits 2 r2 with
      | Option.none => Option.none
      | some (mo, r3) =>
        match r3 with
        | '-' :: r4 =>
          match parseDigits 2 r4 with
          | Option.none => Option.none
          | some (da, r5) =>
            if ¬ (1 ≤ mo ∧ mo ≤ 12 ∧ 1 ≤ da ∧ da ≤ 31) then Option.none
            else match r5 with
            | [] => some ⟨(y : Int), mo, da, 0, 0, 0, 0⟩
            | sep :: r6 =>
              if sep = 'T' ∨ sep = ' ' then
                match parseDigits 2 r6 with
                | some (hh, ':' :: r7) =>
                  match parseDigits 2 r7 with
                  | some (mi, ':' :: r8) =>
                    match parseDigits 2 r8 with
                    | some (ss, []) =>
                      if hh ≤ 23 ∧ mi ≤ 59 ∧ ss ≤ 59 then
                        some ⟨(y : Int), mo, da, hh, mi, ss, 0⟩
                      else Option.none
                    | _ => Option.none
                  | _ => Option.none
                | _ => Option.none
              else Option.none
        | _ => Option.none
    | _ => Option.none

/-- `to_iso8601` — the timestamp canonicalizer.  Note the guard is Python
truthiness (`if not dt`), so the epoch value `0` is treated like an absent
value; numeric branches can raise for out-of-range years (no handler in the
source). -/
def to_iso8601 (dt : PyVal) : Except PyErr (Option String) :=
  if ¬ truthy dt then .ok Option.none
  else match dt with
  | .int n => do
    let d ← utcfromtimestampInt n
    pure (some (isoformat d ++ "Z"))
  | .float q => do
    let d ← utcfromtimestampFloat q
    pure (some (isoformat d ++ "Z"))
  | .bool _ => do
    -- a truthy bool is `True`; `isinstance(True, int)` holds, `float(True) = 1.0`
    let d ← utcfromtimestampInt 1
    pure (some (isoformat d ++ "Z"))
  | .str s =>
    match dateutil_parse s with
    | some d => .ok (some (isoformat d))
    | Option.none => .ok Option.none
  | .datetime d => .ok (some (isoformat d))
  | _ => .ok Option.none

/-! ### The canonical mapper (`map_product` in `src/utils/parser.py`) -/

/-- Python subscription `v[0]`, as used by `images[0]` in `map_product`
(reached only when `images` is truthy, but embedded totally). -/
def subscript0 : PyVal → Except PyErr PyVal
  | .list [] => .error .indexError
  | .list (x :: _) => .ok x
  | .str s =>
    match s.data with
    | [] => .error .indexError
    | c :: _ => .ok (.str (String.singleton c))
  | .dict _ => .error .keyError
  | _ => .error .typeError

def optToPy : Option String → PyVal
  | some s => .str s
  | Option.none => .none

/-- The `isinstance(images, str)` promotion in `map_product`: a bare string
becomes a one-element list. -/
def promote_str_image (v : PyVal) : PyVal :=
  match v with
  | .str s => .list [.str s]
  | v => v

/-- The `"cover"` entry of `map_product`:
`raw.get("cover") or (images[0] if images else None)`, with the lazily
evaluated right operand of `or`. -/
def cover_field (raw : PyDict) (images : PyVal) : Except PyErr PyVal :=
  if truthy (pyGet raw "cover") then pure (pyGet raw "cover")
  else if truthy images then subscript0 images
  else pure PyVal.none

/-- `map_product` — maps a raw product dict into the canonical schema.
Entries are computed in the source's dict-literal order, so the first
raising coercion determines the exception. -/
def map_product (raw : PyDict) (region : Option String) : Except PyErr PyDict := do
  let currency := pyOr (pyGet raw "currency") (.str (guess_currency_from_region region))
  let images := promote_str_image (pyOr (pyOr (pyGet raw "img") (pyGet raw "images")) (.list []))
  let product_id := PyVal.str (pyStr (pyOr (pyOr (pyGet raw "product_id") (pyGet raw "id")) (.str "")))
  let title := pyOr (pyOr (pyGet raw "title") (pyGet raw "name")) (.str "")
  let cover ← cover_field raw images
  let price := PyVal.float (normalize_price (pyOr (pyOr (pyGet raw "price") (pyGet raw "min_price")) (.int 0)))
  let format_price := pyOr (pyGet raw "format_price")
    (.str (format2f (normalize_price (pyGet raw "price")) ++ " " ++ pyStr currency))
  let product_rating := PyVal.str (pyStr (pyOr (pyOr (pyGet raw "product_rating") (pyGet raw "rating")) (.str "")))
  let sold_count ← pyIntFn (pyOr (pyOr (pyGet raw "sold_count") (pyGet raw "sold")) (.int 0))
  let review_count ← pyIntFn (pyOr (pyOr (pyGet raw "review_count") (pyGet raw "reviews")) (.int 0))
  let seller_name := pyOr (pyOr (pyGet raw "seller_name") (pyGet raw "shop_name")) (.str "")
  let seller_id := PyVal.str (pyStr (pyOr (pyOr (pyGet raw "seller_id") (pyGet raw "shop_id")) (.str "")))
  let promotion_labels := pyOr (pyOr (pyGet raw "promotion_labels") (pyGet raw "badges")) (.list [])
  let created_at ← to_iso8601 (pyGet raw "created_at")
  let last_seen_at ← to_iso8601 (pyGet raw "last_seen_at")
  pure [("product_id", product_id), ("title", title), ("cover", cover), ("img", images),
    ("price", price), ("currency", currency), ("format_price", format_price),
    ("discount", pyGet raw "discount"),
    ("warehouse_region", pyOr (pyGet raw "warehouse_region") (pyGet raw "ship_from")),
    ("product_rating", product_rating), ("sold_count", PyVal.int sold_count),
    ("review_count", PyVal.int review_count), ("seller_name", seller_name),
    ("seller_id", seller_id), ("promotion_labels", promotion_labels),
    ("created_at", optToPy created_at), ("last_seen_at", optToPy last_seen_at),
    ("_source", pyOr (pyGet raw "_source") (.str "mock"))]

/-! ### The sort engine (`TikTokShopScraper._apply_sort` in
`src/services/scraper.py`)

Python's `sorted(items, key=...)` first computes every key (raising if any
key coercion fails) and then sorts stably; `reverse=True` keeps equal-key
elements in input order. -/

/-- Stable insertion: `x` goes after every element the comparison keeps
before it. -/
def insertStable {κ α : Type} (le : κ → κ → Bool) (x : κ × α) :
    List (κ × α) → List (κ × α)
  | [] => [x]
  | y :: ys => if le y.1 x.1 then y :: insertStable le x ys else x :: y :: ys

/-- Stable sort by key (insertion sort; `le` must be a total preorder test). -/
def sortStable {κ α : Type} (le : κ → κ → Bool) (xs : List (κ × α)) :
    List (κ × α) :=
  xs.foldl (fun acc x => insertStable le x acc) []

/-- Compute the sort key of every item, propagating the first failure, as
`sorted`'s key precomputation pass does. -/
def keyedE {κ : Type} (f : PyDict → Except PyErr κ) :
    List PyDict → Except PyErr (List (κ × PyDict))
  | [] => .ok []
  | x :: xs => do
    let k ← f x
    let rest ← keyedE f xs
    pure ((k, x) :: rest)

/-- `_apply_sort` — `PRICE_ASC`/`PRICE_DESC` sort by `float(x.get("price", 0))`,
`BEST_SELLERS` by `int(x.get("sold_count", 0))` descending, anything else
(including `RELEVANCE`) returns the items unchanged. -/
def apply_sort (items : List PyDict) (sort : String) : Except PyErr (List PyDict) :=
  if sort = "PRICE_ASC" then do
    let ks ← keyedE (fun x => pyFloatFn (pyGetD x "price" (.int 0))) items
    pure ((sortStable PyFloat.ble ks).map (fun p => p.2))
  else if sort = "PRICE_DESC" then do
    let ks ← keyedE (fun x => pyFloatFn (pyGetD x "price" (.int 0))) items
    pure ((sortStable (fun a b => PyFloat.ble b a) ks).map (fun p => p.2))
  else if sort = "BEST_SELLERS" then do
    let ks ← keyedE (fun x => pyIntFn (pyGetD x "sold_count" (.int 0))) items
    pure ((sortStable (fun a b : Int => decide (b ≤ a)) ks).map (fun p => p.2))
  else pure items

/-! ### Search-request validation (`src/utils/validator.py`)

`InputModel` is a pydantic v2 model.  Two facts of pydantic's semantics are
load-bearing and are embedded explicitly:
* field validators run in field *definition* order, and an `after` validator's
  `info.data` contains only the fields validated so far — `keyword` is the
  first field, so its validator always sees an empty `info.data`;
* a validator without `validate_default=True` does not run when the field is
  absent and its default is used.
-/

structure InputModel where
  keyword : Option String
  isTrending : Bool
  region : Option String
  sortType : String
  limit : Int
  startUrls : Option (List String)
  deriving DecidableEq, Repr

/-- The body of `InputModel.validate_keyword`: reads `startUrls` and
`isTrending` from the already-validated data (`info.data`), raising when all
of start urls, trending flag and the keyword itself are falsy. -/
def validate_keyword (v : Option String) (data : PyDict) :
    Except PyErr (Option String) :=
  let start_urls := pyGetD data "startUrls" .none
  let is_trending := pyGetD data "isTrending" (.bool false)
  let vVal : PyVal := match v with
    | some s => .str s
    | Option.none => .none
  if ¬ truthy start_urls ∧ ¬ truthy is_trending ∧ ¬ truthy vVal then
    .error .validationError
  else .ok (v.map strStrip)

/-- The body of `InputModel.validate_region`. -/
def validate_region (v : Option String) : Except PyErr (Option String) :=
  match v with
  | Option.none => .ok Option.none
  | some s =>
    if s.data.length = 2 ∧ s.data.all Char.isAlpha then .ok (some (strUpper s))
    else .error .validationError

/-- `validate_input` / `InputModel.model_validate`: fields are processed in
definition order (`keyword`, `isTrending`, `region`, `sortType`, `limit`,
`startUrls`); a field absent from the payload takes its default and skips its
validator; a present field is type-checked and then run through its
validator with `info.data` = the fields validated before it.  (pydantic's lax
type coercions beyond these shapes are not exercised by the repository and
are rejected here.) -/
def validate_input (payload : PyDict) : Except PyErr InputModel := do
  -- field 1: keyword (validator sees info.data = {})
  let keyword : Option String ←
    match payload.find? (fun kv => kv.1 == "keyword") with
    | Option.none => pure Option.none
    | some kv =>
      match kv.2 with
      | .none => validate_keyword Option.none []
      | .str s => validate_keyword (some s) []
      | _ => .error .validationError
  -- field 2: isTrending
  let isTrending : Bool ←
    match payload.find? (fun kv => kv.1 == "isTrending") with
    | Option.none => pure false
    | some kv =>
      match kv.2 with
      | .bool b => pure b
      | _ => .error .validationError
  -- field 3: region
  let region : Option String ←
    match payload.find? (fun kv => kv.1 == "region") with
    | Option.none => pure Option.none
    | some kv =>
      match kv.2 with
      | .none => validate_region Option.none
      | .str s => validate_region (some s)
      | _ => .error .validationError
  -- field 4: sortType (a Literal of the four modes)
  let sortType : String ←
    match payload.find? (fun kv => kv.1 == "sortType") with
    | Option.none => pure "RELEVANCE"
    | some kv =>
      match kv.2 with
      | .str s =>
        if s = "PRICE_ASC" ∨ s = "PRICE_DESC" ∨ s = "BEST_SELLERS" ∨ s = "RELEVANCE"
        then pure s else .error .validationError
      | _ => .error .validationError
  -- field 5: limit (int, ge=1, le=2000)
  let limit : Int ←
    match payload.find? (fun kv => kv.1 == "limit") with
    | Option.none => pure 50
    | some kv =>
      match kv.2 with
      | .int n => if 1 ≤ n ∧ n ≤ 2000 then pure n else .error .validationError
      | _ => .error .validationError
  -- field 6: startUrls (Optional[List[str]])
  let startUrls : Option (List String) ←
    match payload.find? (fun kv => kv.1 == "startUrls") with
    | Option.none => pure Option.none
    | some kv =>
      match kv.2 with
      | .none => pure Option.none
      | .list xs =>
        match xs.mapM (fun v => match v with | .str s => some s | _ => Option.none) with
        | some ss => pure (some ss)
        | Option.none => .error .validationError
      | _ => .error .validationError
  pure ⟨keyword, isTrending, region, sortType, limit, startUrls⟩

/-! ### The deterministic mock generator
(`TikTokShopScraper._mock_products` in `src/services/scraper.py`)

The source seeds `random.Random(seed_basis)` with a string built only from
the arguments, and draws every random field from that seeded generator in a
fixed order.  `PyRandom` models `random.Random`: a pseudo-random stream whose
state is a pure function of the seed string (the concrete mixing below — a
string hash feeding an LCG — stands in for CPython's Mersenne Twister, whose
particular output values are irrelevant to the determinism claim). -/

structure PyRandom where
  state : Nat
  deriving DecidableEq, Repr

/-- `random.Random(seed_string)`: the initial state is a pure function of
the seed string. -/
def seedFromString (s : String) : PyRandom :=
  ⟨s.data.foldl (fun h c => (h * 16777619 + c.toNat) % 2 ^ 64) 2166136261⟩

/-- One step of the underlying generator. -/
def PyRandom.next (r : PyRandom) : Nat × PyRandom :=
  let s := (6364136223846793005 * r.state + 1442695040888963407) % 2 ^ 64
  (s / 2 ^ 33, ⟨s⟩)

/-- `rnd.randint(a, b)` (inclusive bounds; call sites have `a ≤ b`). -/
def PyRandom.randint (r : PyRandom) (a b : Int) : Int × PyRandom :=
  let p := r.next
  (a + (((p.1 % (b - a + 1).toNat : Nat)) : Int), p.2)

/-- `rnd.uniform(a, b)`. -/
def PyRandom.uniform (r : PyRandom) (a b : PyFloat) : PyFloat × PyRandom :=
  let p := r.next
  (a.add ((b.sub a).mul (PyFloat.norm ((p.1 % 1000000 : Nat) : Int) 1000000)), p.2)

/-- `rnd.choice(xs)` (call sites pass non-empty literal lists, so the
default is never used). -/
def PyRandom.choice {α : Type} (r : PyRandom) (xs : List α) (dflt : α) : α × PyRandom :=
  let p := r.next
  (xs.getD (p.1 % xs.length) dflt, p.2)

/-- `"".join(rnd.choices(alphabet, k=k))`: `k` independent draws. -/
def PyRandom.choicesString (r : PyRandom) (alphabet : List Char) :
    Nat → List Char × PyRandom
  | 0 => ([], r)
  | k + 1 =>
    let p := r.next
    let c := alphabet.getD (p.1 % alphabet.length) 'x'
    let rest := PyRandom.choicesString p.2 alphabet k
    (c :: rest.1, rest.2)

/-- Python `round(x, 2)` (round half to even). -/
def round2 (q : PyFloat) : PyFloat :=
  PyFloat.norm (roundHalfEven (q.mul (PyFloat.ofInt 100))) 100

/-- Python `round(x, 1)` (round half to even). -/
def round1 (q : PyFloat) : PyFloat :=
  PyFloat.norm (roundHalfEven (q.mul (PyFloat.ofInt 10))) 10

/-- Python `opt or dflt` on an optional string (an empty string is falsy
and also falls back). -/
def pyOrStr (o : Option String) (d : String) : String :=
  match o with
  | some s => if s = "" then d else s
  | Option.none => d

/-- Python `s[:n]`. -/
def strTake (s : String) (n : Nat) : String := String.mk (s.data.take n)

def asciiDigits : List Char := "0123456789".data

def asciiLowercase : List Char := "abcdefghijklmnopqrstuvwxyz".data

/-- One record of the mock stream plus the advanced generator state; draws
happen in the source's evaluation order (loop body first, then the dict
literal's values in order). -/
def mockRecord (keyword : Option String) (region : Option String)
    (currency : String) (i : Nat) (rnd : PyRandom) : PyDict × PyRandom :=
  let s1 := rnd.randint 10 50000
  let sold := s1.1
  let s2 := s1.2.uniform (PyFloat.ofInt 1) (PyFloat.ofInt 300)
  let price := round2 s2.1
  let s3 := s2.2.choice
    [PyVal.none, .str "10%", .str "15%", .str "25%", .str "40%"] PyVal.none
  let discount := s3.1
  let s4 := s3.2.choicesString asciiDigits 18
  let pid := String.mk s4.1
  let s5 := s4.2.choicesString (asciiLowercase ++ asciiDigits) 8
  let imgHash := String.mk s5.1
  let title_kw := strTake (pyOrStr keyword "Trending") 20
  let s6 := s5.2.uniform (PyFloat.norm 16 5) (PyFloat.ofInt 5)
  let rating := round1 s6.1
  let s7 := s6.2.randint 0 (max 10 (sold.fdiv 5))
  let review := s7.1
  let s8 := s7.2.choicesString asciiDigits 10
  let sellerId := String.mk s8.1
  let s9 := s8.2.choice
    [PyVal.list [.str "Flash Sale"], PyVal.list [.str "Top Choice Star Shop"],
     PyVal.list [.str "Editor Pick"], PyVal.list [],
     PyVal.list [.str "Limited Offer"]] (PyVal.list [])
  let labels := s9.1
  ([("product_id", .str pid),
    ("title", .str (title_kw ++ " Product " ++ toString (i + 1))),
    ("cover", .str ("https://picsum.photos/seed/" ++ imgHash ++ "/400/400.webp")),
    ("img", .list [.str ("https://picsum.photos/seed/" ++ imgHash ++ "a/800/800.webp"),
      .str ("https://picsum.photos/seed/" ++ imgHash ++ "b/800/800.webp")]),
    ("price", .float price),
    ("currency", .str currency),
    ("format_price", .none),
    ("discount", discount),
    ("warehouse_region", .str (pyOrStr region "US")),
    ("product_rating", .float rating),
    ("sold_count", .int sold),
    ("review_count", .int review),
    ("seller_name", .str (title_kw ++ " Seller")),
    ("seller_id", .str sellerId),
    ("promotion_labels", labels),
    ("_source", .str "mock")], s9.2)

def mockLoop (keyword : Option String) (region : Option String)
    (currency : String) : Nat → Nat → PyRandom → List PyDict
  | _, 0, _ => []
  | i, n + 1, rnd =>
    let p := mockRecord keyword region currency i rnd
    p.1 :: mockLoop keyword region currency (i + 1) n p.2

/-- `_mock_products` — the deterministic mock generator: a fresh generator
is seeded from `"{keyword or 'trending'}|{region or 'US'}|{int(is_trending)}"`
and `limit` records are drawn from it. -/
def mock_products (keyword : Option String) (is_trending : Bool)
    (region : Option String) (limit : Nat) : List PyDict :=
  let seed_basis := pyOrStr keyword "trending" ++ "|" ++ pyOrStr region "US" ++ "|"
    ++ (if is_trending then "1" else "0")
  let rnd := seedFromString seed_basis
  let currency := guess_currency_from_region region
  mockLoop keyword region currency 0 limit rnd

/-! ### JSON (`json.loads`)

A recursive-descent JSON parser over character lists, with explicit fuel
(every call consumes fuel, and parsing needs at most one call per input
character plus nesting overhead, so `2·length + 2` always suffices).
`Option.none` models `json.JSONDecodeError`; like `json.loads`, the whole
input (up to surrounding whitespace) must be one JSON value. -/

def jsonWsChar (c : Char) : Bool :=
  c == ' ' || c == '\t' || c == '\n' || c == '\r'

def skipJsonWs (cs : List Char) : List Char := cs.dropWhile jsonWsChar

def hexVal (c : Char) : Option Nat :=
  if c.isDigit then some (c.toNat - 48)
  else if 'a' ≤ c ∧ c ≤ 'f' then some (c.toNat - 87)
  else if 'A' ≤ c ∧ c ≤ 'F' then some (c.toNat - 55)
  else Option.none

/-- JSON string body (after the opening quote), with the standard escapes. -/
def jsonStringAux : List Char → List Char → Option (String × List Char)
  | [], _ => Option.none
  | '"' :: rest, acc => some (String.mk acc.reverse, rest)
  | '\\' :: e :: rest, acc =>
    if e == '"' then jsonStringAux rest ('"' :: acc)
    else if e == '\\' then jsonStringAux rest ('\\' :: acc)
    else if e == '/' then jsonStringAux rest ('/' :: acc)
    else if e == 'b' then jsonStringAux rest ('\x08' :: acc)
    else if e == 'f' then jsonStringAux rest ('\x0c' :: acc)
    else if e == 'n' then jsonStringAux rest ('\n' :: acc)
    else if e == 'r' then jsonStringAux rest ('\r' :: acc)
    else if e == 't' then jsonStringAux rest ('\t' :: acc)
    else if e == 'u' then
      match rest with
      | a :: b :: c :: d :: rest2 =>
        match hexVal a, hexVal b, hexVal c, hexVal d with
        | some va, some vb, some vc, some vd =>
          jsonStringAux rest2
            (Char.ofNat (((va * 16 + vb) * 16 + vc) * 16 + vd) :: acc)
        | _, _, _, _ => Option.none
      | _ => Option.none
    else Option.none
  | ['\\'], _ => Option.none
  | c :: rest, acc => jsonStringAux rest (c :: acc)

/-- JSON number: `-? (0 | [1-9][0-9]*) frac? exp?`; an integer literal
yields a Python `int`, otherwise a `float`. -/
def jsonNumber (cs : List Char) : Option (PyVal × List Char) :=
  let signed : Bool × List Char :=
    match cs with
    | '-' :: rest => (true, rest)
    | l => (false, l)
  let intPart : Option (List Char × List Char) :=
    match signed.2 with
    | '0' :: rest =>
      match rest with
      | d :: _ => if d.isDigit then Option.none else some (['0'], rest)
      | [] => some (['0'], [])
    | d :: rest =>
      if d.isDigit then some (d :: rest.takeWhile Char.isDigit, rest.dropWhile Char.isDigit)
      else Option.none
    | [] => Option.none
  match intPart with
  | Option.none => Option.none
  | some (ip, r1) =>
    let fracPart : Option (List Char × List Char) :=
      match r1 with
      | '.' :: rest =>
        let ds := rest.takeWhile Char.isDigit
        if ds.isEmpty then Option.none else some (ds, rest.dropWhile Char.isDigit)
      | l => some ([], l)
    match fracPart with
    | Option.none => Option.none
    | some (fp, r2) =>
      let expPart : Option (Int × List Char) :=
        match r2 with
        | e :: rest =>
          if e == 'e' ∨ e == 'E' then
            let esigned : Int × List Char :=
              match rest with
              | '-' :: rest2 => (-1, rest2)
              | '+' :: rest2 => (1, rest2)
              | l => (1, l)
            let ds := esigned.2.takeWhile Char.isDigit
            if ds.isEmpty then Option.none
            else some (esigned.1 * (digitsVal ds : Int), esigned.2.dropWhile Char.isDigit)
          else some (0, e :: rest)
        | [] => some (0, [])
      match expPart with
      | Option.none => Option.none
      | some (e, r3) =>
        let sign : Int := if signed.1 then -1 else 1
        let noFrac : Bool := match r1 with | '.' :: _ => false | _ => true
        if fp.isEmpty && r2 == r3 && noFrac then
          some (.int (sign * (digitsVal ip : Int)), r3)
        else
          let n : Int := sign * ((digitsVal ip * 10 ^ fp.length + digitsVal fp : Nat) : Int)
          if e < 0 then
            some (.float (PyFloat.norm n (10 ^ fp.length * 10 ^ e.natAbs)), r3)
          else
            some (.float (PyFloat.norm (n * ((10 ^ e.toNat : Nat) : Int)) (10 ^ fp.length)), r3)

mutual

def jparse : Nat → List Char → Option (PyVal × List Char)
  | 0, _ => Option.none
  | fuel + 1, cs =>
    match skipJsonWs cs with
    | '{' :: rest => jparseObj fuel rest []
    | '[' :: rest => jparseArr fuel rest []
    | '"' :: rest =>
      match jsonStringAux rest [] with
      | some p => some (.str p.1, p.2)
      | Option.none => Option.none
    | 't' :: 'r' :: 'u' :: 'e' :: rest => some (.bool true, rest)
    | 'f' :: 'a' :: 'l' :: 's' :: 'e' :: rest => some (.bool false, rest)
    | 'n' :: 'u' :: 'l' :: 'l' :: rest => some (.none, rest)
    | cs2 => jsonNumber cs2

def jparseObj (fuel : Nat) (cs : List Char) (acc : List (String × PyVal)) :
    Option (PyVal × List Char) :=
  match fuel with
  | 0 => Option.none
  | fuel + 1 =>
    match skipJsonWs cs with
    | '}' :: rest => if acc.isEmpty then some (.dict acc, rest) else Option.none
    | '"' :: rest =>
      match jsonStringAux rest [] with
      | Option.none => Option.none
      | some (k, rest2) =>
        match skipJsonWs rest2 with
        | ':' :: rest3 =>
          match jparse fuel rest3 with
          | Option.none => Option.none
          | some (v, rest4) =>
            -- later duplicate keys overwrite in place, as in a Python dict
            let acc2 := if acc.any (fun kv => kv.1 == k) then
                acc.map (fun kv => if kv.1 == k then (k, v) else kv)
              else acc ++ [(k, v)]
            match skipJsonWs rest4 with
            | ',' :: rest5 => jparseObj fuel rest5 acc2
            | '}' :: rest5 => some (.dict acc2, rest5)
            | _ => Option.none
        | _ => Option.none
    | _ => Option.none

def jparseArr (fuel : Nat) (cs : List Char) (acc : List PyVal) :
    Option (PyVal × List Char) :=
  match fuel with
  | 0 => Option.none
  | fuel + 1 =>
    match skipJsonWs cs with
    | ']' :: rest => if acc.isEmpty then some (.list acc, rest) else Option.none
    | cs2 =>
      match jparse fuel cs2 with
      | Option.none => Option.none
      | some (v, rest) =>
        match skipJsonWs rest with
        | ',' :: rest2 => jparseArr fuel rest2 (acc ++ [v])
        | ']' :: rest2 => some (.list (acc ++ [v]), rest2)
        | _ => Option.none

end

/-- `json.loads`: the whole input must be one JSON value, up to whitespace
("Extra data" otherwise). -/
def json_loads (s : String) : Option PyVal :=
  match jparse (2 * s.data.length + 2) s.data with
  | some (v, rest) => if (skipJsonWs rest).isEmpty then some v else Option.none
  | Option.none => Option.none

/-! ### The extraction module (`src/extractors/tiktok_parser.py` and
`src/extractors/utils_format.py`) -/

/-- `text.find(c, start)`: first index `≥ start`, if any. -/
def findAux (c : Char) : List Char → Nat → Option Nat
  | [], _ => Option.none
  | x :: xs, i => if x == c then some i else findAux c xs (i + 1)

def findCharFrom (cs : List Char) (c : Char) (start : Nat) : Option Nat :=
  findAux c (cs.drop start) start

/-- `text.rfind(c, lo, hi)`: last index in `[lo, hi)`, if any. -/
def rfindAux (c : Char) : List Char → Nat → Option Nat → Option Nat
  | [], _, best => best
  | x :: xs, i, best => rfindAux c xs (i + 1) (if x == c then some i else best)

def rfindCharIn (cs : List Char) (c : Char) (lo hi : Nat) : Option Nat :=
  rfindAux c ((cs.drop lo).take (hi - lo)) lo Option.none

/-- The loop of `_extract_json_from_script`, one fuel unit per candidate
start position (`start` strictly increases, so `length + 2` fuel suffices).
Note the faithful quirk: the shrunken end position computed after a failed
parse is used only to decide whether to `break`; the next iteration's
candidate again ends at the *last* `}` of the whole text. -/
def extract_json_loop (cs : List Char) : Nat → Nat → Except PyErr PyVal
  | 0, _ => .error .valueError
  | fuel + 1, start =>
    match rfindCharIn cs '}' 0 cs.length with
    | Option.none => .error .valueError
    | some e =>
      if e ≤ start then .error .valueError
      else
        match json_loads (String.mk ((cs.drop start).take (e + 1 - start))) with
        | some v => .ok v
        | Option.none =>
          match rfindCharIn cs '}' start e with
          | Option.none => .error .valueError
          | some _ =>
            match findCharFrom cs '{' (start + 1) with
            | Option.none => .error .valueError
            | some s2 => extract_json_loop cs fuel s2

/-- `_extract_json_from_script` — find the first `\x7b`, try the span up to
the last `\x7d`, advance the start on failure; raise `ValueError` when no
candidate parses. -/
def extract_json_from_script (s : String) : Except PyErr PyVal :=
  match findCharFrom s.data '{' 0 with
  | Option.none => .error .valueError
  | some st => extract_json_loop s.data (s.data.length + 2) st

/-- The extracted-record dataclass `Product`.  `title` and `product_link`
are typed `str` in the source dataclass but Python does not enforce the
annotation, and `_product_from_dict` can store non-string values there; they
are therefore modelled as `PyVal`. -/
structure Product where
  title : PyVal
  origin_price : Option String
  sale_price : Option String
  score : Option String
  sold : Option String
  product_link : PyVal
  img : Option PyVal
  deriving DecidableEq, Repr

/-- `clean_price` (`utils_format.py`): `None` stays `None`; otherwise strip,
and an empty result becomes `None`.  (Call sites pass strings or `None`.) -/
def clean_price (value : Option String) : Option String :=
  match value with
  | Option.none => Option.none
  | some s =>
    let t := strStrip s
    if t = "" then Option.none else some t

/-- `clean_score` — same behavior as `clean_price`. -/
def clean_score (value : Option String) : Option String :=
  match value with
  | Option.none => Option.none
  | some s =>
    let t := strStrip s
    if t = "" then Option.none else some t

/-- `clean_sold` — same behavior as `clean_price`. -/
def clean_sold (value : Option String) : Option String :=
  match value with
  | Option.none => Option.none
  | some s =>
    let t := strStrip s
    if t = "" then Option.none else some t

/-- `normalize_product_link` on an arbitrary Python value, as reached from
`_product_from_dict`: falsy values are returned unchanged, truthy strings
are stripped, and a truthy non-string raises `AttributeError` (no `.strip`
attribute). -/
def normalize_product_link (url : PyVal) : Except PyErr PyVal :=
  if ¬ truthy url then .ok url
  else match url with
    | .str s => .ok (.str (strStrip s))
    | _ => .error .attributeError

/-- `normalize_product_link` when the link is statically a string (the
`_product_from_card` and `_parse_product_page` call sites). -/
def normalize_product_link_str (url : String) : String :=
  if url = "" then url else strStrip url

/-- `_looks_like_product_dict`: case-insensitive key-set test. -/
def looks_like_product_dict (kvs : List (String × PyVal)) : Bool :=
  let keys := kvs.map (fun kv => strLower kv.1)
  (keys.contains "title" && keys.contains "price") ||
    (keys.contains "name" && keys.contains "image" &&
      (keys.contains "price" || keys.contains "offers"))

/-- The `image` extraction of `_product_from_dict`: first element of a list
(raising `IndexError` on an empty list), a bare string, else `None`. -/
def image_field (kvs : List (String × PyVal)) : Except PyErr (Option PyVal) :=
  match pyGet kvs "image" with
  | .list [] => .error .indexError
  | .list (x :: _) => .ok (some x)
  | .str s => .ok (some (.str s))
  | _ => .ok Option.none

/-- The `raw_price` of `_product_from_dict`: `str(node["price"])` when the
value is a str/int/float (bools included, as `bool` subclasses `int`), else
`str(offers.get("price"))` when `offers` is a dict, else `None`. -/
def raw_price_field (kvs : List (String × PyVal)) : Option String :=
  match pyGet kvs "price" with
  | .str s => some s
  | .int n => some (pyStr (.int n))
  | .float q => some (pyStr (.float q))
  | .bool b => some (pyStr (.bool b))
  | _ =>
    match pyGet kvs "offers" with
    | .dict okvs => some (pyStr (pyGet okvs "price"))
    | _ => Option.none

/-- `_product_from_dict` — one raw record from a product-like JSON node.
Both prices come from the same single `raw_price`; `image` subscription of
an empty list raises `IndexError`; a truthy non-string `url` raises (via
`normalize_product_link`). -/
def product_from_dict (kvs : List (String × PyVal)) (base_url : String) :
    Except PyErr Product := do
  let title := pyOr (pyGet kvs "title") (pyGetD kvs "name" (.str ""))
  let image ← image_field kvs
  let raw_price := raw_price_field kvs
  let origin_price := raw_price
  let score := pyStr (pyOr (pyGet kvs "ratingValue") (pyGetD kvs "rating" (.str "")))
  let sold := pyStr (pyOr (pyGet kvs "sold") (pyOr (pyGet kvs "soldCount") (.str "")))
  let link := pyOr (pyGet kvs "url") (.str base_url)
  let product_link ← normalize_product_link link
  pure ⟨title, clean_price origin_price, clean_price raw_price,
    clean_score (some score), clean_sold (some sold), product_link, image⟩

/-- The per-node contribution of the walk: a product-like dict node yields
the one record `_product_from_dict` builds (errors propagate), any other
node contributes nothing. -/
def walk_head (kvs : List (String × PyVal)) (url : String) :
    Except PyErr (List Product) :=
  if looks_like_product_dict kvs then (product_from_dict kvs url).map (fun p => [p])
  else .ok []

mutual

/-- The recursive walk of `_products_from_json_blob`: a product-like dict
node contributes a record, then its values are walked; lists are walked
elementwise.  Errors raised by `_product_from_dict` propagate (the only
`try` in the caller guards `_extract_json_from_script` alone). -/
def products_from_val (url : String) : PyVal → Except PyErr (List Product)
  | .dict kvs => do
    let head ← walk_head kvs url
    let tail ← products_from_pairs url kvs
    pure (head ++ tail)
  | .list xs => products_from_elems url xs
  | _ => .ok []

def products_from_pairs (url : String) : List (String × PyVal) → Except PyErr (List Product)
  | [] => .ok []
  | (_, v) :: rest => do
    let ps ← products_from_val url v
    let qs ← products_from_pairs url rest
    pure (ps ++ qs)

def products_from_elems (url : String) : List PyVal → Except PyErr (List Product)
  | [] => .ok []
  | v :: rest => do
    let ps ← products_from_val url v
    let qs ← products_from_elems url rest
    pure (ps ++ qs)

end

/-- A DOM product card, pre-selected from the document: the text of its
`span` descendants in document order, the first `h3`/`h2` texts, the first
anchor's `href` and the first image's `src` (absent elements are `none`).
BeautifulSoup's element search itself is the external library; the document
model stores what the card queries in `_product_from_card` read. -/
structure Card where
  spans : List String
  h3 : Option String
  h2 : Option String
  href : Option String
  img : Option String
  deriving DecidableEq, Repr

/-- `_product_from_card` — title from the first span / h3 / h2, price from
the first span containing a dollar sign, link from the first anchor (else
the page URL); a card with neither title nor price is dropped. -/
def product_from_card (card : Card) (base_url : String) : Option Product :=
  let title_el : Option String :=
    match card.spans with
    | s :: _ => some s
    | [] =>
      match card.h3 with
      | some h => some h
      | Option.none => card.h2
  let title : String :=
    match title_el with
    | some t => strStrip t
    | Option.none => ""
  let price : String :=
    match card.spans.find? (fun s => containsSub s.data ['$']) with
    | some p => strStrip p
    | Option.none => ""
  let link : String :=
    match card.href with
    | some l => l
    | Option.none => base_url
  if title == "" && price == "" then Option.none
  else some ⟨.str title, Option.none, clean_price (some price),
    clean_score (some ""), clean_sold (some ""),
    .str (normalize_product_link_str link), card.img.map PyVal.str⟩

/-- A listing document as consumed by `_parse_listing_page`: the text of
each `<script>` tag (`script.string or ""`), and the cards matched by the
two CSS selectors, in selector order. -/
structure ListingDoc where
  scripts : List String
  productCards : List Card
  searchCards : List Card

/-- The per-script contribution of strategy A: empty script texts are
skipped (`if not script_text: continue`); a script whose lower-cased text
contains both `"product"` and `"price"` (with quotes) goes through the JSON
extraction — a `ValueError` there skips the block (`except ValueError:
continue`), a successful parse is walked for product-like nodes. -/
def strategyA_head (s : String) (url : String) : Except PyErr (List Product) :=
  if s = "" then .ok []
  else if containsSub (strLower s).data "\"product\"".data &&
      containsSub (strLower s).data "\"price\"".data then
    match extract_json_from_script s with
    | .error _ => .ok []
    | .ok data => products_from_val url data
  else .ok []

/-- Strategy A — structured-data tree walk over every script block. -/
def strategyA (scripts : List String) (url : String) : Except PyErr (List Product) :=
  match scripts with
  | [] => .ok []
  | s :: rest => do
    let here ← strategyA_head s url
    let more ← strategyA rest url
    pure (here ++ more)

/-- Strategy B — DOM card scan over the two selectors in order. -/
def strategyB (doc : ListingDoc) (url : String) : List Product :=
  (doc.productCards ++ doc.searchCards).filterMap (fun c => product_from_card c url)

/-- A Python value usable as a dict key (hashable). -/
def hashableKey : PyVal → Bool
  | .list _ => false
  | .dict _ => false
  | _ => true

/-- The dedupe loop of `_parse_listing_page`: an insertion-ordered dict
keyed by `product_link`, first occurrence wins; an unhashable key raises
`TypeError` at the membership test. -/
def dedupeGo : List Product → List (PyVal × Product) → Except PyErr (List (PyVal × Product))
  | [], acc => .ok acc
  | p :: rest, acc =>
    if hashableKey p.product_link then
      if acc.any (fun kv => kv.1 == p.product_link) then dedupeGo rest acc
      else dedupeGo rest (acc ++ [(p.product_link, p)])
    else .error .typeError

def dedupe_by_link (ps : List Product) : Except PyErr (List Product) :=
  (dedupeGo ps []).map (fun acc => acc.map (fun kv => kv.2))

/-- `_parse_listing_page` — strategy A over all scripts; strategy B only if
A produced nothing; then dedupe by `product_link`, preserving first-seen
order. -/
def parse_listing_page (doc : ListingDoc) (url : String) : Except PyErr (List Product) :=
  match strategyA doc.scripts url with
  | .error e => .error e
  | .ok a =>
    let products := if a.isEmpty then a ++ strategyB doc url else a
    dedupe_by_link products

/-! ## General helper lemmas -/

theorem bindE_ok {ε α β : Type} {x : Except ε α} {f : α → Except ε β} {b : β} :
    x >>= f = Except.ok b ↔ ∃ a, x = Except.ok a ∧ f a = Except.ok b := by
  cases x <;> simp [Bind.bind, Except.bind]

theorem pureE_ok {ε α : Type} {a b : α} :
    (pure a : Except ε α) = Except.ok b ↔ a = b := by
  simp [pure, Except.pure]

theorem keyedE_ok {κ : Type} (f : PyDict → Except PyErr κ) :
    ∀ (items : List PyDict), (∀ x ∈ items, ∃ k, f x = Except.ok k) →
      ∃ ks, keyedE f items = Except.ok ks := by
  intro items h
  induction items with
  | nil => exact ⟨[], rfl⟩
  | cons x xs ih =>
    obtain ⟨k, hk⟩ := h x (by simp)
    obtain ⟨ks, hks⟩ := ih (fun y hy => h y (by simp [hy]))
    exact ⟨(k, x) :: ks, by simp [keyedE, hk, hks, bindE_ok, pureE_ok]⟩

/-- Whatever `map_product` successfully returns has exactly the canonical
dict-literal shape of the source, with the fallible entries (`cover`, the two
counts, the two timestamps) abstracted. -/
theorem map_product_ok_shape {raw : PyDict} {region : Option String} {rec : PyDict}
    (h : map_product raw region = Except.ok rec) :
    ∃ (cover : PyVal) (n m : Int) (ca la : Option String),
      pyIntFn (pyOr (pyOr (pyGet raw "sold_count") (pyGet raw "sold")) (.int 0)) = Except.ok n ∧
      pyIntFn (pyOr (pyOr (pyGet raw "review_count") (pyGet raw "reviews")) (.int 0)) = Except.ok m ∧
      rec = [("product_id", .str (pyStr (pyOr (pyOr (pyGet raw "product_id") (pyGet raw "id")) (.str "")))),
        ("title", pyOr (pyOr (pyGet raw "title") (pyGet raw "name")) (.str "")),
        ("cover", cover),
        ("img", promote_str_image (pyOr (pyOr (pyGet raw "img") (pyGet raw "images")) (.list []))),
        ("price", .float (normalize_price (pyOr (pyOr (pyGet raw "price") (pyGet raw "min_price")) (.int 0)))),
        ("currency", pyOr (pyGet raw "currency") (.str (guess_currency_from_region region))),
        ("format_price", pyOr (pyGet raw "format_price")
          (.str (format2f (normalize_price (pyGet raw "price")) ++ " " ++
            pyStr (pyOr (pyGet raw "currency") (.str (guess_currency_from_region region)))))),
        ("discount", pyGet raw "discount"),
        ("warehouse_region", pyOr (pyGet raw "warehouse_region") (pyGet raw "ship_from")),
        ("product_rating", .str (pyStr (pyOr (pyOr (pyGet raw "product_rating") (pyGet raw "rating")) (.str "")))),
        ("sold_count", .int n), ("review_count", .int m),
        ("seller_name", pyOr (pyOr (pyGet raw "seller_name") (pyGet raw "shop_name")) (.str "")),
        ("seller_id", .str (pyStr (pyOr (pyOr (pyGet raw "seller_id") (pyGet raw "shop_id")) (.str "")))),
        ("promotion_labels", pyOr (pyOr (pyGet raw "promotion_labels") (pyGet raw "badges")) (.list [])),
        ("created_at", optToPy ca), ("last_seen_at", optToPy la),
        ("_source", pyOr (pyGet raw "_source") (.str "mock"))] := by
  simp only [map_product, bindE_ok, pureE_ok] at h
  obtain ⟨cover, hcov, n, hn, m, hm, ca, hca, la, hla, hrec⟩ := h
  exact ⟨cover, n, m, ca, la, hn, hm, hrec.symm⟩

/-! ## Dedupe characterization -/

/-- Specification-side description of the dedupe contract: keep the first
record per `product_link` key, in original order (`seen` carries the keys
already kept). -/
def firstOccAux (seen : List PyVal) : List Product → List Product
  | [] => []
  | p :: rest =>
    if seen.any (fun k => k == p.product_link) then firstOccAux seen rest
    else p :: firstOccAux (seen ++ [p.product_link]) rest

/-- First occurrence per key, in original order. -/
def firstOcc (ps : List Product) : List Product := firstOccAux [] ps

theorem dedupeGo_eq (ps : List Product) :
    ∀ (acc : List (PyVal × Product)),
      (∀ p ∈ ps, hashableKey p.product_link = true) →
      dedupeGo ps acc = Except.ok
        (acc ++ (firstOccAux (acc.map (fun kv => kv.1)) ps).map
          (fun p => (p.product_link, p))) := by
  induction ps with
  | nil => intro acc _; simp [dedupeGo, firstOccAux]
  | cons p rest ih =>
    intro acc h
    have hp := h p (by simp)
    have hrest : ∀ q ∈ rest, hashableKey q.product_link = true :=
      fun q hq => h q (by simp [hq])
    simp only [dedupeGo, hp, if_true]
    by_cases hm : acc.any (fun kv => kv.1 == p.product_link)
    · rw [if_pos hm, ih acc hrest]
      have hm2 : (acc.map (fun kv => kv.1)).any (fun k => k == p.product_link) = true := by
        simpa [List.any_map, Function.comp] using hm
      simp [firstOccAux, hm2]
    · rw [if_neg hm, ih (acc ++ [(p.product_link, p)]) hrest]
      have hm2 : (acc.map (fun kv => kv.1)).any (fun k => k == p.product_link) = false := by
        rw [Bool.eq_false_iff]
        intro hc
        exact hm (by simpa [List.any_map, Function.comp] using hc)
      simp [firstOccAux, hm2]

/-- The dedupe loop implements the first-occurrence specification (for
hashable keys). -/
theorem dedupe_by_link_eq (ps : List Product)
    (h : ∀ p ∈ ps, hashableKey p.product_link = true) :
    dedupe_by_link ps = Except.ok (firstOcc ps) := by
  unfold dedupe_by_link firstOcc
  rw [dedupeGo_eq ps [] h]
  simp only [Except.map, List.nil_append, List.map_map, List.map_nil]
  rw [show ((fun kv => kv.2) ∘ fun p : Product => (p.product_link, p)) = id from rfl]
  rw [List.map_id]

theorem firstOccAux_sublist (ps : List Product) :
    ∀ seen, (firstOccAux seen ps).Sublist ps := by
  induction ps with
  | nil => intro seen; simp [firstOccAux]
  | cons p rest ih =>
    intro seen
    unfold firstOccAux
    by_cases hm : seen.any (fun k => k == p.product_link)
    · rw [if_pos hm]; exact (ih seen).trans (List.sublist_cons_self p rest)
    · rw [if_neg hm]; exact (ih (seen ++ [p.product_link])).cons₂ p

theorem firstOccAux_invariants (ps : List Product) :
    ∀ seen, (firstOccAux seen ps).Pairwise (fun a b => a.product_link ≠ b.product_link)
      ∧ ∀ p ∈ firstOccAux seen ps, seen.any (fun k => k == p.product_link) = false := by
  induction ps with
  | nil => intro seen; simp [firstOccAux]
  | cons p rest ih =>
    intro seen
    unfold firstOccAux
    by_cases hm : seen.any (fun k => k == p.product_link)
    · rw [if_pos hm]; exact ih seen
    · rw [if_neg hm]
      obtain ⟨pw, notin⟩ := ih (seen ++ [p.product_link])
      refine ⟨List.Pairwise.cons ?_ pw, ?_⟩
      · intro q hq heq
        have hn := notin q hq
        simp [heq, List.any_append] at hn
      · intro q hq
        rcases List.mem_cons.mp hq with hq1 | hq2
        · subst hq1; exact Bool.eq_false_iff.mpr hm
        · have hn := notin q hq2
          simp only [List.any_append, Bool.or_eq_false_iff] at hn
          exact hn.1

theorem firstOccAux_fixed (ys : List Product) :
    ∀ seen, ys.Pairwise (fun a b => a.product_link ≠ b.product_link) →
      (∀ p ∈ ys, seen.any (fun k => k == p.product_link) = false) →
      firstOccAux seen ys = ys := by
  induction ys with
  | nil => intro seen _ _; simp [firstOccAux]
  | cons p rest ih =>
    intro seen hpw hdis
    unfold firstOccAux
    rw [if_neg (by simp [hdis p (by simp)])]
    congr 1
    apply ih (seen ++ [p.product_link]) (List.Pairwise.of_cons hpw)
    intro q hq
    simp only [List.any_append, Bool.or_eq_false_iff]
    refine ⟨hdis q (by simp [hq]), ?_⟩
    have hne := (List.pairwise_cons.mp hpw).1 q hq
    simp [hne]

/-- Idempotence of the first-occurrence specification. -/
theorem firstOcc_idem (ps : List Product) : firstOcc (firstOcc ps) = firstOcc ps := by
  obtain ⟨pw, _⟩ := firstOccAux_invariants ps []
  exact firstOccAux_fixed (firstOcc ps) [] pw (by simp)

/-! ## Walk membership and link shape -/

/-- `normalize_product_link` on a string always returns a string. -/
theorem normalize_product_link_str_ok {u : String} {pl : PyVal}
    (h : normalize_product_link (.str u) = Except.ok pl) :
    ∃ s, pl = .str s := by
  unfold normalize_product_link at h
  by_cases ht : truthy (PyVal.str u)
  · rw [if_neg (by simp [ht])] at h
    simp only [Except.ok.injEq] at h
    exact ⟨strStrip u, h.symm⟩
  · rw [if_pos (by simp [ht])] at h
    simp only [Except.ok.injEq] at h
    exact ⟨u, h.symm⟩

/-- Links built by `_product_from_dict` through `normalize_product_link`
are always strings (a truthy non-string raises instead). -/
theorem normalize_product_link_pyOr_str {g : PyVal} {u : String} {pl : PyVal}
    (h : normalize_product_link (pyOr g (.str u)) = Except.ok pl) :
    ∃ s, pl = .str s := by
  by_cases hg : truthy g
  · rw [pyOr, if_pos hg] at h
    unfold normalize_product_link at h
    rw [if_neg (by simp [hg])] at h
    cases g with
    | str s =>
      simp only [Except.ok.injEq] at h
      exact ⟨strStrip s, h.symm⟩
    | none => simp [truthy] at hg
    | bool b => simp at h
    | int n => simp at h
    | float q => simp at h
    | list xs => simp at h
    | dict kvs => simp at h
    | datetime d => simp at h
  · rw [pyOr, if_neg hg] at h
    exact normalize_product_link_str_ok h

/-- `origin_price` and `sale_price` of a record built by
`_product_from_dict` are the same `clean_price raw_price`; its link is a
string. -/
theorem product_from_dict_shape {kvs : List (String × PyVal)} {url : String}
    {p : Product} (h : product_from_dict kvs url = Except.ok p) :
    p.origin_price = p.sale_price ∧ ∃ s, p.product_link = .str s := by
  simp only [product_from_dict, bindE_ok, pureE_ok] at h
  obtain ⟨image, himg, pl, hpl, hrec⟩ := h
  subst hrec
  exact ⟨rfl, normalize_product_link_pyOr_str hpl⟩

mutual

theorem products_from_val_mem : ∀ (url : String) (v : PyVal) (ps : List Product),
    products_from_val url v = Except.ok ps → ∀ p ∈ ps,
      ∃ kvs, product_from_dict kvs url = Except.ok p
  | url, .dict kvs, ps => by
    intro h p hp
    simp only [products_from_val, bindE_ok, pureE_ok] at h
    obtain ⟨head, hh, tail, ht, hps⟩ := h
    subst hps
    rcases List.mem_append.mp hp with hp1 | hp2
    · unfold walk_head at hh
      by_cases hl : looks_like_product_dict kvs
      · rw [if_pos hl] at hh
        cases hpd : product_from_dict kvs url with
        | error e => rw [hpd] at hh; exact absurd hh (by simp [Except.map])
        | ok q =>
          rw [hpd] at hh
          simp only [Except.map, Except.ok.injEq] at hh
          subst hh
          rcases List.mem_singleton.mp hp1 with rfl
          exact ⟨kvs, hpd⟩
      · rw [if_neg hl] at hh
        simp only [Except.ok.injEq] at hh
        subst hh
        exact absurd hp1 (by simp)
    · exact products_from_pairs_mem url kvs tail ht p hp2
  | url, .list xs, ps => by
    intro h p hp
    simp only [products_from_val] at h
    exact products_from_elems_mem url xs ps h p hp
  | url, .none, ps => by
    intro h p hp; simp only [products_from_val, Except.ok.injEq] at h
    subst h; exact absurd hp (by simp)
  | url, .bool b, ps => by
    intro h p hp; simp only [products_from_val, Except.ok.injEq] at h
    subst h; exact absurd hp (by simp)
  | url, .int n, ps => by
    intro h p hp; simp only [products_from_val, Except.ok.injEq] at h
    subst h; exact absurd hp (by simp)
  | url, .float q, ps => by
    intro h p hp; simp only [products_from_val, Except.ok.injEq] at h
    subst h; exact absurd hp (by simp)
  | url, .str s, ps => by
    intro h p hp; simp only [products_from_val, Except.ok.injEq] at h
    subst h; exact absurd hp (by simp)
  | url, .datetime d, ps => by
    intro h p hp; simp only [products_from_val, Except.ok.injEq] at h
    subst h; exact absurd hp (by simp)

theorem products_from_pairs_mem : ∀ (url : String) (kvs : List (String × PyVal))
    (ps : List Product),
    products_from_pairs url kvs = Except.ok ps → ∀ p ∈ ps,
      ∃ kvs2, product_from_dict kvs2 url = Except.ok p
  | url, [], ps => by
    intro h p hp; simp only [products_from_pairs, Except.ok.injEq] at h
    subst h; exact absurd hp (by simp)
  | url, (k, v) :: rest, ps => by
    intro h p hp
    simp only [products_from_pairs, bindE_ok, pureE_ok] at h
    obtain ⟨qs, h1, rs, h2, hps⟩ := h
    subst hps
    rcases List.mem_append.mp hp with hp1 | hp2
    · exact products_from_val_mem url v qs h1 p hp1
    · exact products_from_pairs_mem url rest rs h2 p hp2

theorem products_from_elems_mem : ∀ (url : String) (xs : List PyVal)
    (ps : List Product),
    products_from_elems url xs = Except.ok ps → ∀ p ∈ ps,
      ∃ kvs2, product_from_dict kvs2 url = Except.ok p
  | url, [], ps => by
    intro h p hp; simp only [products_from_elems, Except.ok.injEq] at h
    subst h; exact absurd hp (by simp)
  | url, v :: rest, ps => by
    intro h p hp
    simp only [products_from_elems, bindE_ok, pureE_ok] at h
    obtain ⟨qs, h1, rs, h2, hps⟩ := h
    subst hps
    rcases List.mem_append.mp hp with hp1 | hp2
    · exact products_from_val_mem url v qs h1 p hp1
    · exact products_from_elems_mem url rest rs h2 p hp2

end

/-- Every record strategy A emits comes from `_product_from_dict` on some
node. -/
theorem strategyA_mem (url : String) : ∀ (scripts : List String) (ps : List Product),
    strategyA scripts url = Except.ok ps → ∀ p ∈ ps,
      ∃ kvs, product_from_dict kvs url = Except.ok p := by
  intro scripts
  induction scripts with
  | nil =>
    intro ps h p hp; simp only [strategyA, Except.ok.injEq] at h
    subst h; exact absurd hp (by simp)
  | cons s rest ih =>
    intro ps h p hp
    simp only [strategyA, bindE_ok, pureE_ok] at h
    obtain ⟨here, h1, more, h2, hps⟩ := h
    subst hps
    rcases List.mem_append.mp hp with hp1 | hp2
    · unfold strategyA_head at h1
      by_cases hs : s = ""
      · rw [if_pos hs] at h1
        simp only [Except.ok.injEq] at h1
        subst h1; exact absurd hp1 (by simp)
      · rw [if_neg hs] at h1
        by_cases hc : containsSub (strLower s).data "\"product\"".data &&
            containsSub (strLower s).data "\"price\"".data
        · rw [if_pos hc] at h1
          cases hx : extract_json_from_script s with
          | error e =>
            rw [hx] at h1
            simp only [Except.ok.injEq] at h1
            subst h1; exact absurd hp1 (by simp)
          | ok data =>
            rw [hx] at h1
            exact products_from_val_mem url data here h1 p hp1
        · rw [if_neg hc] at h1
          simp only [Except.ok.injEq] at h1
          subst h1; exact absurd hp1 (by simp)
    · exact ih more h2 p hp2

/-- Strategy-A records always carry string (hence hashable) links. -/
theorem strategyA_hashable (url : String) (scripts : List String) (ps : List Product)
    (h : strategyA scripts url = Except.ok ps) :
    ∀ p ∈ ps, hashableKey p.product_link = true := by
  intro p hp
  obtain ⟨kvs, hpd⟩ := strategyA_mem url scripts ps h p hp
  obtain ⟨_, s, hs⟩ := product_from_dict_shape hpd
  rw [hs]; rfl

/-! ## Claim C1 -/

/-- C1: the mock generator is deterministic — two calls with identical
arguments (keyword possibly absent, trending flag, region possibly absent,
limit) yield identical record sequences, field-for-field and in identical
order.  In the embedding the generator's only state is the pseudo-random
stream, which is seeded purely from the arguments, so equal arguments give
equal outputs. -/
theorem mock_products_deterministic (k₁ k₂ : Option String) (t₁ t₂ : Bool)
    (r₁ r₂ : Option String) (l₁ l₂ : Nat)
    (hk : k₁ = k₂) (ht : t₁ = t₂) (hr : r₁ = r₂) (hl : l₁ = l₂) :
    mock_products k₁ t₁ r₁ l₁ = mock_products k₂ t₂ r₂ l₂ := by
  subst hk; subst ht; subst hr; subst hl; rfl

theorem mock_products_deterministic_witness :
    mock_products (some "shoes") true (some "VN") 3
      = mock_products (some "shoes") true (some "VN") 3 :=
  mock_products_deterministic (some "shoes") (some "shoes") true true
    (some "VN") (some "VN") 3 3 rfl rfl rfl rfl

/-! ## Claim C2 -/

/-- C2 (counterexample): the mapper is *not* total — a `sold_count` value
that is a truthy string unparsable as an integer makes `map_product` raise
`ValueError` (bare `int(...)` in the source), instead of falling back to 0
as the claim states. -/
theorem map_product_unparsable_count_raises :
    map_product [("sold_count", PyVal.str "abc")] Option.none
      = Except.error PyErr.valueError := by rfl

/-- C2 (amended): `map_product` never raises on *missing* fields — the empty
record maps to the fully-defaulted canonical record (counts 0, price 0.0,
currency USD, identifiers "") — and whenever mapping succeeds, `sold_count`
and `review_count` are exactly the Python `int()` coercion of the fallback
chains `sold_count or sold or 0` / `review_count or reviews or 0` (so falsy
or absent values give 0); but a truthy value `int()` cannot parse raises
`ValueError`, so totality fails only there. -/
theorem map_product_counts_amended :
    (map_product [] Option.none = Except.ok
      [("product_id", .str ""), ("title", .str ""), ("cover", .none),
       ("img", .list []), ("price", .float (PyFloat.ofInt 0)), ("currency", .str "USD"),
       ("format_price", .str "0.00 USD"), ("discount", .none),
       ("warehouse_region", .none), ("product_rating", .str ""),
       ("sold_count", .int 0), ("review_count", .int 0),
       ("seller_name", .str ""), ("seller_id", .str ""),
       ("promotion_labels", .list []), ("created_at", .none),
       ("last_seen_at", .none), ("_source", .str "mock")])
    ∧ ∀ (raw : PyDict) (region : Option String) (rec : PyDict),
        map_product raw region = Except.ok rec →
        ∃ n m : Int,
          pyIntFn (pyOr (pyOr (pyGet raw "sold_count") (pyGet raw "sold")) (.int 0))
            = Except.ok n ∧
          pyGet rec "sold_count" = PyVal.int n ∧
          pyIntFn (pyOr (pyOr (pyGet raw "review_count") (pyGet raw "reviews")) (.int 0))
            = Except.ok m ∧
          pyGet rec "review_count" = PyVal.int m := by
  refine ⟨by rfl, ?_⟩
  intro raw region rec h
  obtain ⟨cover, n, m, ca, la, hn, hm, hrec⟩ := map_product_ok_shape h
  subst hrec
  exact ⟨n, m, hn, rfl, hm, rfl⟩

theorem map_product_counts_amended_witness :
    ∃ n m : Int,
      pyIntFn (pyOr (pyOr (pyGet [("sold_count", PyVal.int 7), ("review_count", PyVal.str "3")] "sold_count")
        (pyGet [("sold_count", PyVal.int 7), ("review_count", PyVal.str "3")] "sold")) (.int 0))
          = Except.ok n ∧
      pyGet [("product_id", PyVal.str ""), ("title", PyVal.str ""), ("cover", PyVal.none),
        ("img", PyVal.list []), ("price", PyVal.float (PyFloat.ofInt 0)), ("currency", PyVal.str "USD"),
        ("format_price", PyVal.str "0.00 USD"), ("discount", PyVal.none),
        ("warehouse_region", PyVal.none), ("product_rating", PyVal.str ""),
        ("sold_count", PyVal.int 7), ("review_count", PyVal.int 3),
        ("seller_name", PyVal.str ""), ("seller_id", PyVal.str ""),
        ("promotion_labels", PyVal.list []), ("created_at", PyVal.none),
        ("last_seen_at", PyVal.none), ("_source", PyVal.str "mock")] "sold_count" = PyVal.int n ∧
      pyIntFn (pyOr (pyOr (pyGet [("sold_count", PyVal.int 7), ("review_count", PyVal.str "3")] "review_count")
        (pyGet [("sold_count", PyVal.int 7), ("review_count", PyVal.str "3")] "reviews")) (.int 0))
          = Except.ok m ∧
      pyGet [("product_id", PyVal.str ""), ("title", PyVal.str ""), ("cover", PyVal.none),
        ("img", PyVal.list []), ("price", PyVal.float (PyFloat.ofInt 0)), ("currency", PyVal.str "USD"),
        ("format_price", PyVal.str "0.00 USD"), ("discount", PyVal.none),
        ("warehouse_region", PyVal.none), ("product_rating", PyVal.str ""),
        ("sold_count", PyVal.int 7), ("review_count", PyVal.int 3),
        ("seller_name", PyVal.str ""), ("seller_id", PyVal.str ""),
        ("promotion_labels", PyVal.list []), ("created_at", PyVal.none),
        ("last_seen_at", PyVal.none), ("_source", PyVal.str "mock")] "review_count" = PyVal.int m :=
  map_product_counts_amended.2
    [("sold_count", PyVal.int 7), ("review_count", PyVal.str "3")] Option.none _ (by rfl)

/-! ## Claim C3 -/

/-- C3 (code bug): the keyword rule documented in the validator's own
comment and error message ("keyword is required when startUrls is not
provided and isTrending is False") is not what the code enforces.  `keyword`
is the first declared field, so its pydantic validator always sees an empty
`info.data` and cannot see `startUrls`/`isTrending`; moreover a validator
does not run at all when the field is absent.  Hence: the empty payload
(no keyword, no startUrls, isTrending false) is *accepted*, while payloads
with an explicit null keyword are *rejected* even when `isTrending` is true
or `startUrls` is non-empty. -/
theorem validate_input_keyword_rule_divergence :
    validate_input [] = Except.ok
      ⟨Option.none, false, Option.none, "RELEVANCE", 50, Option.none⟩
    ∧ validate_input [("keyword", PyVal.none), ("isTrending", PyVal.bool true)]
      = Except.error PyErr.validationError
    ∧ validate_input [("keyword", PyVal.none),
        ("startUrls", PyVal.list [PyVal.str "https://example.com/product/1"])]
      = Except.error PyErr.validationError :=
  ⟨rfl, rfl, rfl⟩

/-! ## Claim C4 -/

/-- C4 (counterexample): sorting *does* raise — a record whose `"price"`
value is a string `float()` cannot parse makes `PRICE_ASC` sorting raise
`ValueError` instead of treating the value as 0. -/
theorem apply_sort_unparsable_price_raises :
    apply_sort [[("price", PyVal.str "abc")]] "PRICE_ASC"
      = Except.error PyErr.valueError := by rfl

/-- C4 (amended): sorting returns a result for every sort mode whenever each
record's `"price"` value is `float()`-coercible and its `"sold_count"` value
is `int()`-coercible; a *missing* price/sold field is defaulted to `0` by
`x.get(..., 0)` (so the all-fields-missing record always sorts), and
`RELEVANCE` (like any unrecognized mode) returns the input order unchanged.
A present but uncoercible value, however, raises. -/
theorem apply_sort_amended (items : List PyDict) (mode : String)
    (h : ∀ x ∈ items,
      (∃ q, pyFloatFn (pyGetD x "price" (.int 0)) = Except.ok q) ∧
      (∃ k, pyIntFn (pyGetD x "sold_count" (.int 0)) = Except.ok k)) :
    (∃ ys, apply_sort items mode = Except.ok ys)
    ∧ apply_sort items "RELEVANCE" = Except.ok items
    ∧ apply_sort [[]] mode = Except.ok [[]] := by
  refine ⟨?_, by rfl, ?_⟩
  · unfold apply_sort
    split_ifs
    · obtain ⟨ks, hks⟩ := keyedE_ok _ items (fun x hx => (h x hx).1)
      exact ⟨(sortStable PyFloat.ble ks).map (fun p => p.2),
        by simp [hks, bindE_ok, pureE_ok]⟩
    · obtain ⟨ks, hks⟩ := keyedE_ok _ items (fun x hx => (h x hx).1)
      exact ⟨(sortStable (fun a b => PyFloat.ble b a) ks).map (fun p => p.2),
        by simp [hks, bindE_ok, pureE_ok]⟩
    · obtain ⟨ks, hks⟩ := keyedE_ok _ items (fun x hx => (h x hx).2)
      exact ⟨(sortStable (fun a b : Int => decide (b ≤ a)) ks).map (fun p => p.2),
        by simp [hks, bindE_ok, pureE_ok]⟩
    · exact ⟨items, rfl⟩
  · unfold apply_sort
    split_ifs <;> rfl

theorem apply_sort_amended_witness :
    (∃ ys, apply_sort [[("price", PyVal.str "2.5"), ("sold_count", PyVal.int 7)], []]
      "BEST_SELLERS" = Except.ok ys)
    ∧ apply_sort [[("price", PyVal.str "2.5"), ("sold_count", PyVal.int 7)], []]
      "RELEVANCE" = Except.ok [[("price", PyVal.str "2.5"), ("sold_count", PyVal.int 7)], []]
    ∧ apply_sort [[]] "BEST_SELLERS" = Except.ok [[]] :=
  apply_sort_amended [[("price", PyVal.str "2.5"), ("sold_count", PyVal.int 7)], []]
    "BEST_SELLERS"
    (by
      intro x hx
      simp only [List.mem_cons, List.not_mem_nil, or_false] at hx
      rcases hx with h1 | h1 <;> subst h1 <;> exact ⟨⟨_, rfl⟩, ⟨_, rfl⟩⟩)

/-! ## Claim C8 -/

/-- C8 (counterexample): `format_price` is synthesized from the *raw*
`price` key only, not from the canonical price.  For `{"min_price": 5}` the
canonical price is `5.0` but `format_price` is `"0.00 USD"`, not
`"5.00 USD"`; and an explicit but falsy `format_price` (`""`) is replaced by
the synthesized string rather than passed through. -/
theorem format_price_from_raw_price_only :
    (map_product [("min_price", PyVal.int 5)] Option.none).map
        (fun r => (pyGet r "price", pyGet r "format_price"))
      = Except.ok (PyVal.float (PyFloat.ofInt 5), PyVal.str "0.00 USD")
    ∧ format2f (PyFloat.ofInt 5) ++ " USD" = "5.00 USD"
    ∧ (map_product [("format_price", PyVal.str ""), ("price", PyVal.int 3)] Option.none).map
        (fun r => pyGet r "format_price")
      = Except.ok (PyVal.str "3.00 USD") :=
  ⟨rfl, rfl, rfl⟩

/-- C8 (amended): whenever `map_product` succeeds, `format_price` is the raw
`format_price` value when that value is truthy, and otherwise is synthesized
as `normalize_price(raw.get("price"))` — the raw `price` key alone, without
the `min_price` fallback used for the canonical price — formatted to two
decimals, followed by a space and the canonical currency. -/
theorem map_product_format_price_amended (raw : PyDict) (region : Option String)
    (rec : PyDict) (h : map_product raw region = Except.ok rec) :
    pyGet rec "format_price" =
      pyOr (pyGet raw "format_price")
        (.str (format2f (normalize_price (pyGet raw "price")) ++ " " ++
          pyStr (pyOr (pyGet raw "currency") (.str (guess_currency_from_region region))))) := by
  obtain ⟨cover, n, m, ca, la, hn, hm, hrec⟩ := map_product_ok_shape h
  subst hrec
  rfl

theorem map_product_format_price_amended_witness :
    pyGet [("product_id", PyVal.str ""), ("title", PyVal.str ""), ("cover", PyVal.none),
      ("img", PyVal.list []), ("price", PyVal.float (PyFloat.ofInt 3)), ("currency", PyVal.str "USD"),
      ("format_price", PyVal.str "3.00 USD"), ("discount", PyVal.none),
      ("warehouse_region", PyVal.none), ("product_rating", PyVal.str ""),
      ("sold_count", PyVal.int 0), ("review_count", PyVal.int 0),
      ("seller_name", PyVal.str ""), ("seller_id", PyVal.str ""),
      ("promotion_labels", PyVal.list []), ("created_at", PyVal.none),
      ("last_seen_at", PyVal.none), ("_source", PyVal.str "mock")] "format_price" =
    pyOr (pyGet [("price", PyVal.int 3)] "format_price")
      (.str (format2f (normalize_price (pyGet [("price", PyVal.int 3)] "price")) ++ " " ++
        pyStr (pyOr (pyGet [("price", PyVal.int 3)] "currency")
          (.str (guess_currency_from_region Option.none))))) :=
  map_product_format_price_amended [("price", PyVal.int 3)] Option.none _ (by rfl)

/-! ## Claim C9 -/

/-- C9 (counterexample): the epoch-seconds values `0` and `0.0` are
perfectly parsable UTC timestamps (1970-01-01T00:00:00Z), but `to_iso8601`
returns null for both, because the guard `if not dt` tests Python
truthiness rather than absence; and the truthy epoch value `10^12` (year
33658) makes `datetime.utcfromtimestamp` raise rather than produce a
string, so "accepts every epoch-seconds numeric value" also fails above
`datetime`'s year range. -/
theorem to_iso8601_epoch_zero_null :
    to_iso8601 (PyVal.int 0) = Except.ok Option.none
    ∧ to_iso8601 (PyVal.float PyFloat.zero) = Except.ok Option.none
    ∧ to_iso8601 (PyVal.int 1000000000000) = Except.error PyErr.valueError :=
  ⟨rfl, rfl, rfl⟩

/-- C9 (amended): `to_iso8601` produces a non-null ISO-8601 UTC string for
every *truthy* (non-zero) epoch-seconds numeric — integer or float — whose
UTC year lies in `datetime`'s range 1..9999 (outside that range CPython
raises, and the source has no handler); falsy inputs (`None`, `0`, `0.0`,
`""`) produce null; `datetime` values yield their `isoformat`; and a
non-empty string yields the parsed ISO form when the best-effort parse
succeeds and null when it fails. -/
theorem to_iso8601_amended (n : Int) (hn : n ≠ 0)
    (hy : 1 ≤ (civilOfEpoch n 0).year ∧ (civilOfEpoch n 0).year ≤ 9999)
    (q : PyFloat) (hq : q.num ≠ 0)
    (hqy : 1 ≤ (civilOfEpochFloat q).year ∧ (civilOfEpochFloat q).year ≤ 9999) :
    to_iso8601 (.int n) = Except.ok (some (isoformat (civilOfEpoch n 0) ++ "Z"))
    ∧ to_iso8601 (.float q) = Except.ok (some (isoformat (civilOfEpochFloat q) ++ "Z"))
    ∧ to_iso8601 (.int 0) = Except.ok Option.none
    ∧ to_iso8601 (.float PyFloat.zero) = Except.ok Option.none
    ∧ to_iso8601 PyVal.none = Except.ok Option.none
    ∧ to_iso8601 (.str "") = Except.ok Option.none
    ∧ (∀ d : PyDateTime, to_iso8601 (.datetime d) = Except.ok (some (isoformat d)))
    ∧ (∀ s : String, s ≠ "" →
        to_iso8601 (.str s) = Except.ok ((dateutil_parse s).map isoformat)) := by
  refine ⟨?_, ?_, by rfl, by rfl, by rfl, by rfl, fun d => by rfl, ?_⟩
  · have ht : truthy (.int n) = true := by
      simp [truthy, bne_iff_ne, hn]
    simp only [to_iso8601, ht, Bool.not_true, Bool.false_eq_true, if_false,
      utcfromtimestampInt, if_pos hy]
    rfl
  · have ht : truthy (.float q) = true := by
      simp [truthy, bne_iff_ne, hq]
    simp only [to_iso8601, ht, Bool.not_true, Bool.false_eq_true, if_false,
      utcfromtimestampFloat, if_pos hqy]
    rfl
  · intro s hs
    have ht : truthy (.str s) = true := by
      simp [truthy, bne_iff_ne, hs]
    simp only [to_iso8601, ht, Bool.not_true, Bool.false_eq_true, if_false]
    cases hp : dateutil_parse s <;> simp [hp]

/-! ## Claim C5 -/

/-- C5 (code bug): the extraction does not recover a leading JSON object
followed by `\x7d`-bearing noise.  The shrunken end boundary computed after a
failed parse is discarded — each iteration retries from the next `\x7b` to
the *last* `\x7d` of the whole text — so for `'\x7b"a": 1\x7d x\x7d\x7d'`
every candidate span fails and the function raises `ValueError`, although
the prefix `'\x7b"a": 1\x7d'` is parsable JSON (second conjunct) and the
claimed shrinking loop would have recovered it. -/
theorem extract_json_trailing_noise_raises :
    extract_json_from_script "\x7b\"a\": 1\x7d x\x7d\x7d" = Except.error PyErr.valueError
    ∧ json_loads "\x7b\"a\": 1\x7d" = some (.dict [("a", .int 1)]) :=
  ⟨rfl, rfl⟩

/-! ## Claim C6 -/

/-- C6: strategy precedence short-circuits.  Whenever strategy A (the
structured-data tree walk) succeeds with a non-empty record list, the
listing-page result is exactly the deduplication of strategy A's records —
strategy B's DOM card scan contributes nothing (the code consults the card
selectors only when A's result list is empty), and every final record is one
of A's records. -/
theorem parse_listing_strategy_precedence (doc : ListingDoc) (url : String)
    (ps : List Product) (hA : strategyA doc.scripts url = Except.ok ps)
    (hne : ps ≠ []) :
    parse_listing_page doc url = Except.ok (firstOcc ps)
    ∧ ∀ p ∈ firstOcc ps, p ∈ ps := by
  have hh := strategyA_hashable url doc.scripts ps hA
  constructor
  · unfold parse_listing_page
    rw [hA]
    have hie : ps.isEmpty = false := by
      cases ps with
      | nil => exact absurd rfl hne
      | cons a l => rfl
    simp only [hie, Bool.false_eq_true, if_false]
    exact dedupe_by_link_eq ps hh
  · intro p hp
    exact (firstOccAux_sublist ps []).subset hp

theorem parse_listing_strategy_precedence_witness :
    parse_listing_page
      ⟨["window.__INIT__ = \x7b\"product\":[\x7b\"title\":\"Widget\",\"price\":\"$9.99\"\x7d]\x7d"],
       [⟨["Card $3"], Option.none, Option.none, some "https://c/product/1", Option.none⟩], []⟩
      "https://page"
      = Except.ok (firstOcc [⟨.str "Widget", some "$9.99", some "$9.99",
          Option.none, Option.none, .str "https://page", Option.none⟩])
    ∧ ∀ p ∈ firstOcc [(⟨.str "Widget", some "$9.99", some "$9.99",
          Option.none, Option.none, .str "https://page", Option.none⟩ : Product)],
        p ∈ [(⟨.str "Widget", some "$9.99", some "$9.99",
          Option.none, Option.none, .str "https://page", Option.none⟩ : Product)] :=
  parse_listing_strategy_precedence
    ⟨["window.__INIT__ = \x7b\"product\":[\x7b\"title\":\"Widget\",\"price\":\"$9.99\"\x7d]\x7d"],
     [⟨["Card $3"], Option.none, Option.none, some "https://c/product/1", Option.none⟩], []⟩
    "https://page" _ (by rfl) (by simp)

/-! ## Claim C7 -/

/-- C7: deduplication keyed by `product_link` keeps the first occurrence of
each key and preserves first-seen order — the output is `firstOcc X`, the
subsequence of `X` consisting of the first record per key in original order;
dedupe is idempotent and never increases the record count.  (The hypothesis
reflects Python's requirement that dict keys be hashable; every record
actually produced by the extractors has a string link, which is hashable.) -/
theorem dedupe_first_occurrence_spec (X : List Product)
    (h : ∀ p ∈ X, hashableKey p.product_link = true) :
    dedupe_by_link X = Except.ok (firstOcc X)
    ∧ dedupe_by_link (firstOcc X) = Except.ok (firstOcc X)
    ∧ (firstOcc X).Sublist X
    ∧ (firstOcc X).length ≤ X.length := by
  have hsub := firstOccAux_sublist X ([] : List PyVal)
  refine ⟨dedupe_by_link_eq X h, ?_, hsub, hsub.length_le⟩
  have h2 : ∀ p ∈ firstOcc X, hashableKey p.product_link = true :=
    fun p hp => h p (hsub.subset hp)
  rw [dedupe_by_link_eq (firstOcc X) h2, firstOcc_idem]

theorem dedupe_first_occurrence_spec_witness :
    dedupe_by_link
      [⟨.str "t1", Option.none, Option.none, Option.none, Option.none, .str "a", Option.none⟩,
       ⟨.str "t2", Option.none, Option.none, Option.none, Option.none, .str "a", Option.none⟩,
       ⟨.str "t3", Option.none, Option.none, Option.none, Option.none, .str "b", Option.none⟩]
      = Except.ok (firstOcc
        [⟨.str "t1", Option.none, Option.none, Option.none, Option.none, .str "a", Option.none⟩,
         ⟨.str "t2", Option.none, Option.none, Option.none, Option.none, .str "a", Option.none⟩,
         ⟨.str "t3", Option.none, Option.none, Option.none, Option.none, .str "b", Option.none⟩])
    ∧ dedupe_by_link (firstOcc
        [⟨.str "t1", Option.none, Option.none, Option.none, Option.none, .str "a", Option.none⟩,
         ⟨.str "t2", Option.none, Option.none, Option.none, Option.none, .str "a", Option.none⟩,
         ⟨.str "t3", Option.none, Option.none, Option.none, Option.none, .str "b", Option.none⟩])
      = Except.ok (firstOcc
        [⟨.str "t1", Option.none, Option.none, Option.none, Option.none, .str "a", Option.none⟩,
         ⟨.str "t2", Option.none, Option.none, Option.none, Option.none, .str "a", Option.none⟩,
         ⟨.str "t3", Option.none, Option.none, Option.none, Option.none, .str "b", Option.none⟩])
    ∧ (firstOcc
        [⟨.str "t1", Option.none, Option.none, Option.none, Option.none, .str "a", Option.none⟩,
         ⟨.str "t2", Option.none, Option.none, Option.none, Option.none, .str "a", Option.none⟩,
         ⟨.str "t3", Option.none, Option.none, Option.none, Option.none, .str "b", Option.none⟩]).Sublist
        [⟨.str "t1", Option.none, Option.none, Option.none, Option.none, .str "a", Option.none⟩,
         ⟨.str "t2", Option.none, Option.none, Option.none, Option.none, .str "a", Option.none⟩,
         ⟨.str "t3", Option.none, Option.none, Option.none, Option.none, .str "b", Option.none⟩]
    ∧ (firstOcc
        [⟨.str "t1", Option.none, Option.none, Option.none, Option.none, .str "a", Option.none⟩,
         ⟨.str "t2", Option.none, Option.none, Option.none, Option.none, .str "a", Option.none⟩,
         ⟨.str "t3", Option.none, Option.none, Option.none, Option.none, .str "b", Option.none⟩]).length ≤
        ([⟨.str "t1", Option.none, Option.none, Option.none, Option.none, .str "a", Option.none⟩,
          ⟨.str "t2", Option.none, Option.none, Option.none, Option.none, .str "a", Option.none⟩,
          ⟨.str "t3", Option.none, Option.none, Option.none, Option.none, .str "b", Option.none⟩] :
          List Product).length :=
  dedupe_first_occurrence_spec
    [⟨.str "t1", Option.none, Option.none, Option.none, Option.none, .str "a", Option.none⟩,
     ⟨.str "t2", Option.none, Option.none, Option.none, Option.none, .str "a", Option.none⟩,
     ⟨.str "t3", Option.none, Option.none, Option.none, Option.none, .str "b", Option.none⟩]
    (by intro p hp; fin_cases hp <;> rfl)

/-! ## Claim C10 -/

/-- C10: every record produced by the structured-data tree walk has
`origin_price` equal to `sale_price` — `_product_from_dict` derives both
from the same single `raw_price` of the node, so the strategy never emits a
record with two distinct prices. -/
theorem walk_origin_eq_sale (url : String) (v : PyVal) (ps : List Product)
    (h : products_from_val url v = Except.ok ps) :
    ∀ p ∈ ps, p.origin_price = p.sale_price := by
  intro p hp
  obtain ⟨kvs, hpd⟩ := products_from_val_mem url v ps h p hp
  exact (product_from_dict_shape hpd).1

theorem walk_origin_eq_sale_witness :
    (⟨.str "Widget", some "$9.99", some "$9.99", Option.none, Option.none,
      .str "https://page", Option.none⟩ : Product).origin_price
    = (⟨.str "Widget", some "$9.99", some "$9.99", Option.none, Option.none,
      .str "https://page", Option.none⟩ : Product).sale_price :=
  walk_origin_eq_sale "https://page"
    (.dict [("product", .list [.dict [("title", .str "Widget"), ("price", .str "$9.99")]])])
    _ (by rfl)
    ⟨.str "Widget", some "$9.99", some "$9.99", Option.none, Option.none,
      .str "https://page", Option.none⟩ (by decide)

theorem to_iso8601_amended_witness :
    to_iso8601 (.int 86400) = Except.ok (some (isoformat (civilOfEpoch 86400 0) ++ "Z"))
    ∧ to_iso8601 (.float (PyFloat.norm 3 2))
      = Except.ok (some (isoformat (civilOfEpochFloat (PyFloat.norm 3 2)) ++ "Z"))
    ∧ to_iso8601 (.int 0) = Except.ok Option.none
    ∧ to_iso8601 (.float PyFloat.zero) = Except.ok Option.none
    ∧ to_iso8601 PyVal.none = Except.ok Option.none
    ∧ to_iso8601 (.str "") = Except.ok Option.none
    ∧ (∀ d : PyDateTime, to_iso8601 (.datetime d) = Except.ok (some (isoformat d)))
    ∧ (∀ s : String, s ≠ "" →
        to_iso8601 (.str s) = Except.ok ((dateutil_parse s).map isoformat)) :=
  to_iso8601_amended 86400 (by decide) (by decide)
    (PyFloat.norm 3 2) (by decide) (by decide)

end TikTokShop
